import Mathlib

/-!
Shallow embedding of the deletion-decision and notification core of the
nkp-cluster-cleaner repository (src/nkp_cluster_cleaner/: config.py,
cluster_manager.py, notification_manager.py, notification_history.py and
commands/notify.py), together with theorems settling the spec claims.

Modelling conventions:
* Instants and durations are integers counted in seconds (Python datetime
  arithmetic restricted to whole seconds); percentages are rationals
  (Python floats carry exact small rationals in all relevant branches).
* Python strings are Lean String values; `str.lower` and `str.strip` are
  modelled on the ASCII fragment.
* `re.match(pattern, s)` on the configurable policy patterns is an external
  stdlib facility; it is abstracted as an oracle parameter
  `rm : RegexMatch` (pattern -> string -> matched?).  The fail-open
  treatment of an invalid regex inside `ExtraLabel.validate_value` is
  folded into the oracle, which is the complete information the decision
  logic extracts from `re`.
* `datetime.fromisoformat` is likewise stdlib; a `Timestamp` carries the
  raw metadata string together with the oracle result `parsed` (`none`
  models an unparsable raw string).
* Kubernetes API reads are abstracted: the list of KommanderCluster
  records is an input list, and `verify_capi_cluster_exists` is an oracle
  `capiExists : CapiOracle`.
-/

namespace NCC

/-! ## Characters and strings (ASCII fragment of the Python behaviour) -/

/-- ASCII decimal digit test, modelling membership in the regex class `\d`
(restricted to ASCII). -/
def isAsciiDigit (c : Char) : Bool := 48 ≤ c.toNat && c.toNat ≤ 57

/-- ASCII lowering of one character, modelling `str.lower`. -/
def toLowerChar (c : Char) : Char :=
  if 65 ≤ c.toNat ∧ c.toNat ≤ 90 then Char.ofNat (c.toNat + 32) else c

/-- `str.lower` on whole strings (ASCII fragment). -/
def lowerStr (s : String) : String := ⟨s.data.map toLowerChar⟩

/-- Python whitespace (the ASCII characters removed by `str.strip`). -/
def isPyWhitespace (c : Char) : Bool :=
  c.toNat = 32 || c.toNat = 9 || c.toNat = 10 || c.toNat = 13 || c.toNat = 11 || c.toNat = 12

/-- `str.strip` on the character list. -/
def stripList (l : List Char) : List Char :=
  ((l.dropWhile isPyWhitespace).reverse.dropWhile isPyWhitespace).reverse

/-- `str.strip`. -/
def stripStr (s : String) : String := ⟨stripList s.data⟩

/-- Is `pat` a prefix of `l`?  (Building block for substring search.) -/
def listStartsWith : List Char → List Char → Bool
  | [], _ => true
  | _ :: _, [] => false
  | p :: ps, c :: cs => p = c && listStartsWith ps cs

/-- Does `pat` occur as a contiguous run inside `l`?  Models Python
`pat in s`. -/
def listHasSub (pat : List Char) : List Char → Bool
  | [] => listStartsWith pat []
  | c :: cs => listStartsWith pat (c :: cs) || listHasSub pat cs

/-- Python `pat in s` on strings. -/
def containsSubstr (s pat : String) : Bool := listHasSub pat.data s.data

/-- Numeric value of a digit character. -/
def digitVal (c : Char) : Nat := c.toNat - 48

/-- Decimal value of a digit string, modelling `int(...)` on the regex
group `(\d+)`. -/
def digitsToNat (l : List Char) : Nat := l.foldl (fun a c => 10 * a + digitVal c) 0

/-! ## Timestamps -/

/-- A creation timestamp as stored in KommanderCluster metadata: the raw
ISO string plus the oracle result of `datetime.fromisoformat` (after the
code's stripping of a trailing `Z`), in whole seconds.  `parsed = none`
models a raw string on which parsing raises `ValueError`. -/
structure Timestamp where
  raw : String
  parsed : Option Int
deriving DecidableEq, Repr

/-! ## Expiry calculator: `ClusterManager._parse_expires_label` -/

/-- The `ValueError` message raised on a regex-format failure. -/
def invalidFormatMsg : String :=
  "Invalid format. Expected format: <number><unit> where unit is d/w/h/y (e.g., \x271d\x27, \x272w\x27, \x2748h\x27, \x271y\x27)"

/-- `re.match(r\x27^(\d+)([dhwy])$\x27, v)`: splits `v` into the nonempty
digit group and the unit character, or fails. -/
def splitNumberUnit (l : List Char) : Option (List Char × Char) :=
  match l.dropLast, l.getLast? with
  | [], _ => none
  | _, none => none
  | d :: ds, some u =>
    if (d :: ds).all isAsciiDigit && (u = 'd' || u = 'h' || u = 'w' || u = 'y')
    then some (d :: ds, u) else none

/-- The `timedelta` computed from number and unit, in seconds
(`h` hours, `d` days, `w` weeks, `y` 365-day years); the trailing `none`
models the `raise ValueError(f"Unsupported time unit ...")` branch. -/
def unitDelta (u : Char) (n : Nat) : Option Int :=
  if u = 'h' then some ((n : Int) * 3600)
  else if u = 'd' then some ((n : Int) * 86400)
  else if u = 'w' then some ((n : Int) * 604800)
  else if u = 'y' then some ((n : Int) * 365 * 86400)
  else none

/-- The `ValueError` message raised on an unparsable creation timestamp. -/
def invalidTimestampMsg (raw : String) : String :=
  "Invalid creation timestamp format: " ++ raw

/-- `ClusterManager._parse_expires_label(expires_value, creation_timestamp)`:
strip whitespace, lower-case, match `^(\d+)([dhwy])$`, convert the unit to a
`timedelta`, parse the creation timestamp and return creation + delta.
Errors are the `ValueError` messages of the source, in source order. -/
def parseExpiresLabel (expiresValue : String) (creationTimestamp : Timestamp) :
    Except String Int :=
  let v := stripStr expiresValue
  match splitNumberUnit (lowerStr v).data with
  | none => .error invalidFormatMsg
  | some (ds, u) =>
    match unitDelta u (digitsToNat ds) with
    | none => .error ("Unsupported time unit: " ++ String.mk [u])
    | some delta =>
      match creationTimestamp.parsed with
      | none => .error (invalidTimestampMsg creationTimestamp.raw)
      | some t => .ok (t + delta)

/-- Second, spec-side definition (used only to compare against the code
for claim C8): the spec says `computeExpiry` fails with `InvalidFormat`
exactly when the raw `expiresValue` does not match `^(\d+)([hdwy])$`
case-insensitively.  This encodes that regex language on the raw value,
with no stripping. -/
def specExpiresRegexMatches (v : String) : Bool :=
  let l := v.data.map toLowerChar
  !l.dropLast.isEmpty && l.dropLast.all isAsciiDigit &&
    (match l.getLast? with
     | some u => u = 'h' || u = 'd' || u = 'w' || u = 'y'
     | none => false)

/-! ## Policy configuration: `config.py` -/

/-- `ExtraLabel` dataclass. -/
structure ExtraLabel where
  name : String
  description : Option String
  regex : Option String
deriving DecidableEq, Repr

/-- `DeletionCriteria` dataclass. -/
structure DeletionCriteria where
  protected_cluster_patterns : List String
  excluded_namespace_patterns : List String
  extra_labels : List ExtraLabel
deriving DecidableEq, Repr

/-- Oracle modelling the truthiness of `re.match(pattern, s)` for the
configured patterns (first argument the pattern, second the subject). -/
def RegexMatch := String → String → Bool

/-- `ExtraLabel.validate_value`: no regex means always valid; otherwise the
`re.match` oracle decides (an invalid regex is treated as always valid by
the source, which is part of the oracle's behaviour). -/
def validateValue (rm : RegexMatch) (el : ExtraLabel) (value : String) : Bool :=
  match el.regex with
  | none => true
  | some r => rm r value

/-- `ConfigManager.is_cluster_protected`. -/
def isClusterProtected (rm : RegexMatch) (cfg : DeletionCriteria)
    (clusterName nspace : String) : Bool :=
  cfg.protected_cluster_patterns.any (fun p => rm p clusterName) ||
  cfg.excluded_namespace_patterns.any (fun p => rm p nspace)

/-- `labels.get(k)` on the label mapping (keys unique in a Python dict). -/
def lookupLabel (labels : List (String × String)) (k : String) : Option String :=
  match labels.find? (fun p => p.1 = k) with
  | none => none
  | some p => some p.2

/-- The error message produced for one required extra label, or `none` if
it validates. -/
def extraLabelError (rm : RegexMatch) (labels : List (String × String))
    (el : ExtraLabel) : Option String :=
  match lookupLabel labels el.name with
  | none => some ("Missing required label \x27" ++ el.name ++ "\x27")
  | some v =>
    if validateValue rm el v then none
    else
      match el.regex with
      | some r => some ("Label \x27" ++ el.name ++ "\x27 value \x27" ++ v ++
          "\x27 does not match pattern \x27" ++ r ++ "\x27")
      | none => some ("Label \x27" ++ el.name ++ "\x27 value \x27" ++ v ++ "\x27 is invalid")

/-- `ConfigManager.validate_extra_labels`: the error messages in
declaration order. -/
def validateExtraLabels (rm : RegexMatch) (cfg : DeletionCriteria)
    (labels : List (String × String)) : List String :=
  cfg.extra_labels.filterMap (extraLabelError rm labels)

/-! ## Cluster records and the deletion decision:
`ClusterManager.kommander_cluster_matches_criteria` -/

/-- One KommanderCluster record as consumed by the decision engine: the
object name, the `_namespace` field attached by
`list_all_kommander_clusters`, the metadata labels, the metadata
creation timestamp (`none` when the key is absent) and the
`spec.clusterRef.capiCluster` name/namespace fields. -/
structure KommanderCluster where
  name : String
  nspace : String
  labels : List (String × String)
  creationTimestamp : Option Timestamp
  capi_name : Option String
  capi_nspace : Option String
deriving DecidableEq, Repr

/-- Python truthiness of `metadata.get("creationTimestamp")` (absent or
empty string is falsy). -/
def timestampTruthy : Option Timestamp → Bool
  | none => false
  | some ts => ts.raw ≠ ""

/-- The reason returned for the hard-coded management-cluster guard. -/
def mgmtReason : String := "Cluster is a management cluster"

/-- Reason for a configuration-protected cluster. -/
def protectedReason (name : String) : String :=
  "KommanderCluster " ++ name ++ " is protected by configuration"

/-- Reason for a missing `expires` label. -/
def missingExpiresReason : String := "Missing \x27expires\x27 label"

/-- Reason for a missing or empty metadata creation timestamp. -/
def missingCreationReason : String :=
  "Missing creationTimestamp in KommanderCluster metadata"

/-- Reason for an `expires` label whose evaluation raised `ValueError`. -/
def invalidExpiresReason (v e : String) : String :=
  "Invalid \x27expires\x27 label format: " ++ v ++ " (" ++ e ++ ")"

/-- Reason for an expired cluster (`creation_timestamp[:10]` is the date
prefix of the raw string). -/
def expiredReason (rawTs v : String) : String :=
  "Cluster has expired (created: " ++ rawTs.take 10 ++ ", expires after: " ++ v ++ ")"

/-- Reason for a not-yet-expired cluster, `rem` the remaining whole
seconds: the remaining time is rendered as `timedelta.days` days when
positive, else as `timedelta.seconds // 3600` hours. -/
def notExpiredReason (rem : Nat) : String :=
  if rem / 86400 > 0 then
    "Cluster has not expired yet (expires in ~" ++ toString (rem / 86400) ++ "d)"
  else
    "Cluster has not expired yet (expires in ~" ++ toString (rem % 86400 / 3600) ++ "h)"

/-- `ClusterManager.kommander_cluster_matches_criteria`: returns
`(should_delete, reason)`.  `now` models `datetime.now()`. -/
def matchesCriteria (rm : RegexMatch) (cfg : DeletionCriteria) (now : Int)
    (kc : KommanderCluster) : Bool × String :=
  if kc.name = "host-cluster" then (false, mgmtReason)
  else if isClusterProtected rm cfg kc.name kc.nspace then
    (false, protectedReason kc.name)
  else
    match lookupLabel kc.labels "expires" with
    | none => (true, missingExpiresReason)
    | some expiresValue =>
      match validateExtraLabels rm cfg kc.labels with
      | err :: _ => (true, err)
      | [] =>
        if timestampTruthy kc.creationTimestamp = false then
          (true, missingCreationReason)
        else
          match kc.creationTimestamp with
          | none => (true, missingCreationReason)
          | some ts =>
            match parseExpiresLabel expiresValue ts with
            | .error e => (true, invalidExpiresReason expiresValue e)
            | .ok expiry =>
              if now ≥ expiry then (true, expiredReason ts.raw expiresValue)
              else (false, notExpiredReason (expiry - now).toNat)

/-! ## Partition into delete-set and excluded-set:
`ClusterManager.get_clusters_with_exclusions` -/

/-- The combined per-cluster object built by
`get_clusters_with_exclusions`. -/
structure CombinedInfo where
  kommander_cluster : KommanderCluster
  capi_cluster_name : Option String
  capi_cluster_namespace : Option String
  labels : List (String × String)
deriving DecidableEq, Repr

/-- Build the combined object for one record
(`get_capi_cluster_reference` + `get_cluster_labels`). -/
def mkCombinedInfo (kc : KommanderCluster) : CombinedInfo :=
  { kommander_cluster := kc
    capi_cluster_name := kc.capi_name
    capi_cluster_namespace := kc.capi_nspace
    labels := kc.labels }

/-- Python truthiness of an optional string (`None` and `""` falsy). -/
def truthyOptStr : Option String → Bool
  | none => false
  | some s => s ≠ ""

/-- Oracle modelling `verify_capi_cluster_exists(name, namespace)`. -/
def CapiOracle := String → String → Bool

/-- The loop body of `get_clusters_with_exclusions` for one record:
`.inl` is an append to `clusters_to_delete`, `.inr` to
`excluded_clusters`. -/
def classifyOne (rm : RegexMatch) (cfg : DeletionCriteria) (capiExists : CapiOracle)
    (now : Int) (kc : KommanderCluster) :
    (CombinedInfo × String) ⊕ (CombinedInfo × String) :=
  let res := matchesCriteria rm cfg now kc
  let info := mkCombinedInfo kc
  if res.1 then
    if truthyOptStr kc.capi_name && truthyOptStr kc.capi_nspace then
      if capiExists (kc.capi_name.getD "") (kc.capi_nspace.getD "") then .inl (info, res.2)
      else .inr (info, "Referenced CAPI cluster " ++ kc.capi_name.getD "" ++ " not found")
    else .inr (info, "No valid CAPI cluster reference")
  else .inr (info, res.2)

/-- `ClusterManager.get_clusters_with_exclusions` over an input listing:
returns `(clusters_to_delete, excluded_clusters)` in iteration order. -/
def getClustersWithExclusions (rm : RegexMatch) (cfg : DeletionCriteria)
    (capiExists : CapiOracle) (now : Int) :
    List KommanderCluster → List (CombinedInfo × String) × List (CombinedInfo × String)
  | [] => ([], [])
  | kc :: rest =>
    let r := getClustersWithExclusions rm cfg capiExists now rest
    match classifyOne rm cfg capiExists now kc with
    | .inl p => (p :: r.1, r.2)
    | .inr p => (r.1, p :: r.2)

/-! ## Notification threshold engine:
`NotificationManager.get_clusters_for_notification` -/

/-- One notification candidate:
`(cluster_info, elapsed_percentage, expiry_time)`. -/
abbrev NotifEntry := CombinedInfo × ℚ × Int

/-- The keyword list used to detect missing/invalid-label deletion
reasons. -/
def missingLabelKeywords : List String :=
  ["missing required label", "missing expires label",
   "does not match pattern", "invalid expires format"]

/-- The body of the first loop of `get_clusters_for_notification` (the
`clusters_to_delete` pass): every surviving record is appended to the
critical list with elapsed percentage `100.0`.  `none` models the one
fall-through path of the source (reason mentions "expired", truthy
`expires` value, falsy creation timestamp) in which nothing is appended. -/
def classifyDeleteEntry (now : Int) (p : CombinedInfo × String) : Option NotifEntry :=
  let info := p.1
  let expiresValue := lookupLabel info.labels "expires"
  let rl := lowerStr p.2
  let isMissingLabels := missingLabelKeywords.any (fun k => containsSubstr rl k)
  if isMissingLabels then some (info, 100, now)
  else if containsSubstr rl "expired" then
    if truthyOptStr expiresValue then
      if timestampTruthy info.kommander_cluster.creationTimestamp then
        match info.kommander_cluster.creationTimestamp with
        | some ts =>
          match parseExpiresLabel (expiresValue.getD "") ts with
          | .ok e => some (info, 100, e)
          | .error _ => some (info, 100, now)
        | none => none
      else none
    else some (info, 100, now)
  else some (info, 100, now)

/-- `max(0, min(100, x))`. -/
def clampPct (x : ℚ) : ℚ := max 0 (min 100 x)

/-- Severity bucket of an excluded-cluster notification. -/
inductive Severity
  | warning
  | critical
deriving DecidableEq, Repr

/-- The body of the second loop of `get_clusters_for_notification` (the
`excluded_clusters` pass): only records whose reason contains
"has not expired yet" with a truthy `expires` label, truthy creation
timestamp, successfully parsed times and a positive total duration are
classified; `none` models `continue`. -/
def classifyExcludedEntry (now wth cth : Int) (p : CombinedInfo × String) :
    Option (Severity × NotifEntry) :=
  let info := p.1
  if containsSubstr p.2 "has not expired yet" = false then none
  else if truthyOptStr (lookupLabel info.labels "expires") = false then none
  else if timestampTruthy info.kommander_cluster.creationTimestamp = false then none
  else
    match info.kommander_cluster.creationTimestamp with
    | none => none
    | some ts =>
      match parseExpiresLabel ((lookupLabel info.labels "expires").getD "") ts,
            ts.parsed with
      | .ok expiry, some ctime =>
        let total : Int := expiry - ctime
        let elapsed : Int := now - ctime
        if total > 0 then
          let pct := clampPct ((elapsed : ℚ) / (total : ℚ) * 100)
          if pct ≥ (cth : ℚ) then some (.critical, (info, pct, expiry))
          else if pct ≥ (wth : ℚ) then some (.warning, (info, pct, expiry))
          else none
        else none
      | _, _ => none

/-- The critical-bucket projection of one excluded record. -/
def pickCritical (now wth cth : Int) (p : CombinedInfo × String) : Option NotifEntry :=
  match classifyExcludedEntry now wth cth p with
  | some (Severity.critical, e) => some e
  | _ => none

/-- The warning-bucket projection of one excluded record. -/
def pickWarning (now wth cth : Int) (p : CombinedInfo × String) : Option NotifEntry :=
  match classifyExcludedEntry now wth cth p with
  | some (Severity.warning, e) => some e
  | _ => none

/-- `NotificationManager.get_clusters_for_notification(warning_threshold,
critical_threshold)`: validates the thresholds, partitions the inventory
via `get_clusters_with_exclusions`, then builds
`(critical_clusters, warning_clusters)` — first every record of the
delete-set (always at 100.0), then the excluded records bucketed by
elapsed percentage. -/
def getClustersForNotification (rm : RegexMatch) (cfg : DeletionCriteria)
    (capiExists : CapiOracle) (wth cth now : Int) (clusters : List KommanderCluster) :
    Except String (List NotifEntry × List NotifEntry) :=
  if wth < 0 || wth > 100 then .error "Warning threshold must be between 0 and 100"
  else if cth < 0 || cth > 100 then .error "Critical threshold must be between 0 and 100"
  else if wth ≥ cth then .error "Warning threshold must be less than critical threshold"
  else
    let part := getClustersWithExclusions rm cfg capiExists now clusters
    let critFromDelete := part.1.filterMap (classifyDeleteEntry now)
    let critFromExcluded := part.2.filterMap (pickCritical now wth cth)
    let warnFromExcluded := part.2.filterMap (pickWarning now wth cth)
    .ok (critFromDelete ++ critFromExcluded, warnFromExcluded)

/-! ## Notification history store: `notification_history.py`
(Redis modelled as an association list key -> (severity set, ttl)). -/

/-- The Redis state: association list of key to (severity set, ttl in
seconds; `-1` models a key without expiry). -/
abbrev HistStore := List (String × (List String × Int))

/-- `NotificationHistory._get_cluster_key(cluster_name, namespace)`. -/
def getClusterKey (clusterName nspace : String) : String :=
  "notifications:cluster:" ++ nspace ++ ":" ++ clusterName

/-- First-match key lookup in the store. -/
def storeLookup (st : HistStore) (k : String) : Option (List String × Int) :=
  match st.find? (fun p => p.1 = k) with
  | none => none
  | some p => some p.2

/-- Redis `SADD key sev` (creates the key when absent; a fresh key has no
expiry). -/
def storeSadd : HistStore → String → String → HistStore
  | [], k, sev => [(k, ([sev], -1))]
  | p :: rest, k, sev =>
    if p.1 = k then
      (p.1, (if sev ∈ p.2.1 then p.2.1 else p.2.1 ++ [sev], p.2.2)) :: rest
    else p :: storeSadd rest k sev

/-- Redis `EXPIRE key t` (no-op on an absent key). -/
def storeExpire : HistStore → String → Int → HistStore
  | [], _, _ => []
  | p :: rest, k, t => if p.1 = k then (p.1, (p.2.1, t)) :: rest else p :: storeExpire rest k t

/-- Redis `DEL key`. -/
def storeDelete (st : HistStore) (k : String) : HistStore :=
  st.filter (fun p => p.1 ≠ k)

/-- The severity set stored at a key (empty when the key is absent). -/
def storeSevs (st : HistStore) (k : String) : List String :=
  match storeLookup st k with
  | none => []
  | some v => v.1

/-- `NotificationHistory.has_been_notified` (`SISMEMBER`). -/
def hasBeenNotified (st : HistStore) (clusterName nspace sev : String) : Bool :=
  sev ∈ storeSevs st (getClusterKey clusterName nspace)

/-- `NotificationHistory.mark_as_notified` (`SADD` then `EXPIRE` with
`ttl_days * 24 * 3600`). -/
def markAsNotified (st : HistStore) (clusterName nspace sev : String) (ttlDays : Int) :
    HistStore :=
  storeExpire (storeSadd st (getClusterKey clusterName nspace) sev)
    (getClusterKey clusterName nspace) (ttlDays * 24 * 3600)

/-- The cluster identity used by the history layer:
`cluster_info.get("capi_cluster_name", "unknown")` and the namespace
analogue. -/
def histName (e : NotifEntry) : String := e.1.capi_cluster_name.getD "unknown"

/-- See `histName`. -/
def histNspace (e : NotifEntry) : String := e.1.capi_cluster_namespace.getD "unknown"

/-- `NotificationHistory.filter_new_notifications`. -/
def filter_new_notifications (st : HistStore) (clusters : List NotifEntry) (sev : String) :
    List NotifEntry :=
  clusters.filter (fun e => !(hasBeenNotified st (histName e) (histNspace e) sev))

/-- `NotificationHistory.mark_clusters_as_notified` (default
`ttl_days = 30`). -/
def mark_clusters_as_notified (st : HistStore) (clusters : List NotifEntry) (sev : String) :
    HistStore :=
  clusters.foldl (fun s e => markAsNotified s (histName e) (histNspace e) sev 30) st

/-- `NotificationHistory.clear_cluster_history`. -/
def clear_cluster_history (st : HistStore) (clusterName nspace : String) : HistStore :=
  storeDelete st (getClusterKey clusterName nspace)

/-! ## Stale-history reconciliation: `commands/notify.py` -/

/-- One row of `get_all_notified_clusters`. -/
structure NotifiedCluster where
  cluster_name : String
  nspace : String
  severities : List String
  ttl_seconds : Int
deriving DecidableEq, Repr

/-- `key.split(":")`. -/
def splitColon : List Char → List (List Char)
  | [] => [[]]
  | c :: rest =>
    if c = ':' then [] :: splitColon rest
    else
      match splitColon rest with
      | [] => [[c]]
      | s :: ss => (c :: s) :: ss

/-- `":".join(parts)`. -/
def joinColon : List (List Char) → List Char
  | [] => []
  | [s] => s
  | s :: rest => s ++ ':' :: joinColon rest

/-- Parse one Redis key back into `(cluster_name, namespace)`:
keys matching the glob `notifications:cluster:*` are split on `":"`;
`parts[2]` is the namespace and `":".join(parts[3:])` the cluster name
(requires at least 4 parts). -/
def parseNotifiedKey (key : String) : Option (String × String) :=
  if listStartsWith "notifications:cluster:".data key.data then
    let parts := splitColon key.data
    if parts.length ≥ 4 then
      some (String.mk (joinColon (parts.drop 3)), String.mk (parts.getD 2 []))
    else none
  else none

/-- `NotificationHistory.get_all_notified_clusters`. -/
def get_all_notified_clusters (st : HistStore) : List NotifiedCluster :=
  st.filterMap (fun p =>
    match parseNotifiedKey p.1 with
    | some nns =>
      some { cluster_name := nns.1, nspace := nns.2, severities := p.2.1,
             ttl_seconds := p.2.2 }
    | none => none)

/-- The `"{namespace}:{cluster_name}"` key of a notification candidate
used by `_cleanup_stale_notifications`. -/
def notifKey (e : NotifEntry) : String := histNspace e ++ ":" ++ histName e

/-- One iteration of the clearing loop of
`_cleanup_stale_notifications`. -/
def cleanupStep (needed : List String) (acc : HistStore × Nat) (nc : NotifiedCluster) :
    HistStore × Nat :=
  if (nc.nspace ++ ":" ++ nc.cluster_name) ∈ needed then acc
  else (clear_cluster_history acc.1 nc.cluster_name nc.nspace, acc.2 + 1)

/-- The clearing loop of `_cleanup_stale_notifications`: every stored
cluster whose `"{namespace}:{name}"` key is not currently needed has its
history cleared; returns the new store and the cleaned count. -/
def cleanupPass (needed : List String) (st : HistStore) : HistStore × Nat :=
  (get_all_notified_clusters st).foldl (cleanupStep needed) (st, 0)

/-- `_cleanup_stale_notifications`: compute the clusters currently
requiring any notification, then clear the history of every other stored
cluster. -/
def cleanup_stale_notifications (rm : RegexMatch) (cfg : DeletionCriteria)
    (capiExists : CapiOracle) (wth cth now : Int) (clusters : List KommanderCluster)
    (st : HistStore) : Except String (HistStore × Nat) :=
  match getClustersForNotification rm cfg capiExists wth cth now clusters with
  | .error e => .error e
  | .ok cw => .ok (cleanupPass ((cw.1 ++ cw.2).map notifKey) st)

/-! ## Helper lemmas: substrings -/

theorem listStartsWith_append_of (pat l m : List Char)
    (h : listStartsWith pat l = true) : listStartsWith pat (l ++ m) = true := by
  induction pat generalizing l with
  | nil => rfl
  | cons p ps ih =>
    cases l with
    | nil => simp [listStartsWith] at h
    | cons c cs =>
      simp only [listStartsWith, Bool.and_eq_true] at h
      simp only [List.cons_append, listStartsWith, Bool.and_eq_true]
      exact ⟨h.1, ih cs h.2⟩

theorem listHasSub_of_startsWith (pat l : List Char)
    (h : listStartsWith pat l = true) : listHasSub pat l = true := by
  cases l with
  | nil => simpa [listHasSub] using h
  | cons c cs => simp [listHasSub, h]

theorem listHasSub_append_right (pat a b : List Char)
    (h : listHasSub pat b = true) : listHasSub pat (a ++ b) = true := by
  induction a with
  | nil => simpa using h
  | cons c cs ih =>
    simp only [List.cons_append, listHasSub, Bool.or_eq_true]
    exact Or.inr ih

theorem listHasSub_append_left (pat a b : List Char)
    (h : listHasSub pat a = true) : listHasSub pat (a ++ b) = true := by
  induction a with
  | nil =>
    simp only [listHasSub] at h
    exact listHasSub_of_startsWith _ _ (listStartsWith_append_of _ _ _ h)
  | cons c cs ih =>
    simp only [listHasSub, Bool.or_eq_true] at h
    rcases h with h | h
    · exact listHasSub_of_startsWith _ _ (by simpa using listStartsWith_append_of _ _ b h)
    · simp only [List.cons_append, listHasSub, Bool.or_eq_true]
      exact Or.inr (ih h)

/-! ## Helper lemmas: strip and lower -/

theorem map_eq_self_of_fix {α : Type} (f : α → α) (l : List α)
    (h : ∀ c ∈ l, f c = c) : l.map f = l := by
  induction l with
  | nil => rfl
  | cons c cs ih =>
    simp only [List.map_cons, List.cons.injEq]
    exact ⟨h c (by simp), ih (fun x hx => h x (by simp [hx]))⟩

theorem dropWhile_eq_self_of (p : Char → Bool) (l : List Char)
    (h : ∀ c ∈ l, p c = false) : l.dropWhile p = l := by
  cases l with
  | nil => rfl
  | cons c cs => simp [List.dropWhile_cons, h c (by simp)]

theorem stripList_eq_self (l : List Char)
    (h : ∀ c ∈ l, isPyWhitespace c = false) : stripList l = l := by
  unfold stripList
  rw [dropWhile_eq_self_of _ _ h,
      dropWhile_eq_self_of _ _ (fun c hc => h c (List.mem_reverse.mp hc)),
      List.reverse_reverse]

theorem toLowerChar_digit (c : Char) (h : isAsciiDigit c = true) :
    toLowerChar c = c := by
  simp only [isAsciiDigit, Bool.and_eq_true, decide_eq_true_eq] at h
  simp only [toLowerChar, ite_eq_right_iff]
  intro hc
  omega

theorem digit_not_ws (c : Char) (h : isAsciiDigit c = true) :
    isPyWhitespace c = false := by
  simp only [isAsciiDigit, Bool.and_eq_true, decide_eq_true_eq] at h
  simp only [isPyWhitespace, Bool.or_eq_false_iff, decide_eq_false_iff_not]
  omega

/-! ## Helper lemmas: the expiry calculator -/

theorem splitNumberUnit_concat (ds : List Char) (u : Char)
    (hne : ds ≠ []) (hdig : ∀ c ∈ ds, isAsciiDigit c = true)
    (hu : u = 'd' ∨ u = 'h' ∨ u = 'w' ∨ u = 'y') :
    splitNumberUnit (ds ++ [u]) = some (ds, u) := by
  obtain ⟨d, tl, rfl⟩ : ∃ d tl, ds = d :: tl := by
    cases ds with
    | nil => exact absurd rfl hne
    | cons d tl => exact ⟨d, tl, rfl⟩
  have hall : (d :: tl).all isAsciiDigit = true := List.all_eq_true.mpr hdig
  have hub : (u = 'd' || u = 'h' || u = 'w' || u = 'y') = true := by
    rcases hu with h | h | h | h <;> simp [h]
  simp only [splitNumberUnit, List.dropLast_concat, List.getLast?_concat]
  simp [hall, hub]

theorem unitChar_not_ws (u : Char) (hu : u = 'd' ∨ u = 'h' ∨ u = 'w' ∨ u = 'y') :
    isPyWhitespace u = false := by
  rcases hu with h | h | h | h <;> subst h <;> decide

theorem unitChar_lower (u : Char) (hu : u = 'd' ∨ u = 'h' ∨ u = 'w' ∨ u = 'y') :
    toLowerChar u = u := by
  rcases hu with h | h | h | h <;> subst h <;> decide

theorem parseExpiresLabel_digits (ds : List Char) (u : Char) (ts : Timestamp)
    (delta t : Int) (hne : ds ≠ []) (hdig : ∀ c ∈ ds, isAsciiDigit c = true)
    (hu : u = 'd' ∨ u = 'h' ∨ u = 'w' ∨ u = 'y')
    (hud : unitDelta u (digitsToNat ds) = some delta) (hp : ts.parsed = some t) :
    parseExpiresLabel (String.mk (ds ++ [u])) ts = .ok (t + delta) := by
  have hnws : ∀ c ∈ ds ++ [u], isPyWhitespace c = false := by
    intro c hc
    rcases List.mem_append.mp hc with h | h
    · exact digit_not_ws c (hdig c h)
    · rw [List.mem_singleton.mp h]; exact unitChar_not_ws u hu
  have hstrip : stripList (ds ++ [u]) = ds ++ [u] := stripList_eq_self _ hnws
  have hlower : (ds ++ [u]).map toLowerChar = ds ++ [u] := by
    apply map_eq_self_of_fix
    intro c hc
    rcases List.mem_append.mp hc with h | h
    · exact toLowerChar_digit c (hdig c h)
    · rw [List.mem_singleton.mp h]; exact unitChar_lower u hu
  unfold parseExpiresLabel
  show (match splitNumberUnit (lowerStr (stripStr ⟨ds ++ [u]⟩)).data with
    | none => Except.error invalidFormatMsg
    | some (ds, u) => _) = _
  have : (lowerStr (stripStr ⟨ds ++ [u]⟩)).data = ds ++ [u] := by
    show (stripList (ds ++ [u])).map toLowerChar = ds ++ [u]
    rw [hstrip, hlower]
  rw [this, splitNumberUnit_concat ds u hne hdig hu]
  simp [hud, hp]

/-- C9: For every creation time t and positive integer N (given by its
nonempty decimal digit string), computeExpiry maps "Ny" to t plus exactly
N * 365 days, "Nh" to N hours, "Nd" to N days and "Nw" to N 7-day weeks
(instants in seconds). -/
theorem c9_unit_semantics (t : Int) (raw : String) (ds : List Char)
    (hne : ds ≠ []) (hdig : ∀ c ∈ ds, isAsciiDigit c = true) :
    parseExpiresLabel ⟨ds ++ ['y']⟩ ⟨raw, some t⟩ =
      .ok (t + (digitsToNat ds : Int) * 365 * 86400) ∧
    parseExpiresLabel ⟨ds ++ ['h']⟩ ⟨raw, some t⟩ =
      .ok (t + (digitsToNat ds : Int) * 3600) ∧
    parseExpiresLabel ⟨ds ++ ['d']⟩ ⟨raw, some t⟩ =
      .ok (t + (digitsToNat ds : Int) * 86400) ∧
    parseExpiresLabel ⟨ds ++ ['w']⟩ ⟨raw, some t⟩ =
      .ok (t + (digitsToNat ds : Int) * 7 * 86400) := by
  refine ⟨?_, ?_, ?_, ?_⟩
  · exact parseExpiresLabel_digits ds 'y' _ _ t hne hdig (by simp) rfl rfl
  · exact parseExpiresLabel_digits ds 'h' _ _ t hne hdig (by simp) rfl rfl
  · exact parseExpiresLabel_digits ds 'd' _ _ t hne hdig (by simp) rfl rfl
  · have : (digitsToNat ds : Int) * 604800 = (digitsToNat ds : Int) * 7 * 86400 := by ring
    rw [← this]
    exact parseExpiresLabel_digits ds 'w' _ _ t hne hdig (by simp) rfl rfl

/-- C9 witness: "2y" on a concrete timestamp yields exactly
2 * 365 * 86400 seconds after creation, and likewise for the other
units. -/
theorem c9_witness :
    parseExpiresLabel ⟨['2'] ++ ['y']⟩ ⟨"2025-01-01T00:00:00Z", some 1735689600⟩ =
      .ok (1735689600 + (digitsToNat ['2'] : Int) * 365 * 86400) ∧
    parseExpiresLabel ⟨['2'] ++ ['h']⟩ ⟨"2025-01-01T00:00:00Z", some 1735689600⟩ =
      .ok (1735689600 + (digitsToNat ['2'] : Int) * 3600) ∧
    parseExpiresLabel ⟨['2'] ++ ['d']⟩ ⟨"2025-01-01T00:00:00Z", some 1735689600⟩ =
      .ok (1735689600 + (digitsToNat ['2'] : Int) * 86400) ∧
    parseExpiresLabel ⟨['2'] ++ ['w']⟩ ⟨"2025-01-01T00:00:00Z", some 1735689600⟩ =
      .ok (1735689600 + (digitsToNat ['2'] : Int) * 7 * 86400) :=
  c9_unit_semantics 1735689600 "2025-01-01T00:00:00Z" ['2'] (by decide) (by decide)

/-! ## Claim C8: format-error characterisation of the expiry calculator -/

deriving instance DecidableEq for Except

/-- The boolean the spec-side regex check computes on a character list. -/
def specRegexBool (l : List Char) : Bool :=
  !l.dropLast.isEmpty && l.dropLast.all isAsciiDigit &&
    (match l.getLast? with
     | some u => u = 'h' || u = 'd' || u = 'w' || u = 'y'
     | none => false)

theorem unitOr_comm (u : Char) :
    (u = 'h' || u = 'd' || u = 'w' || u = 'y' : Bool) =
      (u = 'd' || u = 'h' || u = 'w' || u = 'y' : Bool) := by
  by_cases h1 : u = 'd' <;> by_cases h2 : u = 'h' <;> simp [h1, h2]

theorem specRegexBool_of_none (l : List Char) (h : splitNumberUnit l = none) :
    specRegexBool l = false := by
  unfold splitNumberUnit at h
  split at h
  · simp_all [specRegexBool]
  · simp_all [specRegexBool]
  · rename_i d ds u heq1 heq2
    split at h
    · exact absurd h (by simp)
    · rename_i hcond
      have hc : ((d :: ds).all isAsciiDigit &&
          (u = 'd' || u = 'h' || u = 'w' || u = 'y') : Bool) = false :=
        Bool.eq_false_iff.mpr hcond
      simp only [specRegexBool, heq1, heq2, List.isEmpty_cons, Bool.not_false,
        Bool.true_and, unitOr_comm]
      exact hc

theorem specRegexBool_of_some (l : List Char) (ds : List Char) (u : Char)
    (h : splitNumberUnit l = some (ds, u)) : specRegexBool l = true := by
  unfold splitNumberUnit at h
  split at h
  · exact absurd h (by simp)
  · exact absurd h (by simp)
  · rename_i d tl v heq1 heq2
    split at h
    · rename_i hcond
      simp only [Bool.and_eq_true] at hcond
      simp [specRegexBool, heq1, heq2, unitOr_comm, hcond.1, hcond.2]
    · exact absurd h (by simp)

theorem splitNumberUnit_some_unit (l : List Char) (ds : List Char) (u : Char)
    (h : splitNumberUnit l = some (ds, u)) :
    u = 'd' ∨ u = 'h' ∨ u = 'w' ∨ u = 'y' := by
  unfold splitNumberUnit at h
  split at h
  · exact absurd h (by simp)
  · exact absurd h (by simp)
  · rename_i d tl v heq1 heq2
    split at h
    · rename_i hcond
      simp only [Bool.and_eq_true, Bool.or_eq_true, decide_eq_true_eq] at hcond
      have hv : v = u := congrArg Prod.snd (Option.some.inj h)
      subst hv
      tauto
    · exact absurd h (by simp)

theorem unitDelta_some_of_unit (u : Char) (n : Nat)
    (hu : u = 'd' ∨ u = 'h' ∨ u = 'w' ∨ u = 'y') :
    ∃ delta, unitDelta u n = some delta := by
  rcases hu with h | h | h | h <;> subst h <;> exact ⟨_, rfl⟩

/-- C8 amended: with a parseable creation time, computeExpiry fails with
the invalid-format error iff the WHITESPACE-STRIPPED expires value does
not match `^(\d+)([hdwy])$` case-insensitively.  (The raw value itself is
stripped by the code before matching, which is what the counterexample
exhibits.) -/
theorem c8_invalid_format_iff (v : String) (ts : Timestamp) (t : Int)
    (hp : ts.parsed = some t) :
    parseExpiresLabel v ts = .error invalidFormatMsg ↔
      specExpiresRegexMatches (stripStr v) = false := by
  have hspec : specExpiresRegexMatches (stripStr v) =
      specRegexBool (lowerStr (stripStr v)).data := rfl
  rw [hspec]
  unfold parseExpiresLabel
  rcases hs : splitNumberUnit (lowerStr (stripStr v)).data with _ | ⟨ds, u⟩
  · simp only [hs]
    exact ⟨fun _ => specRegexBool_of_none _ hs, fun _ => by simp⟩
  · obtain ⟨delta, hud⟩ :=
      unitDelta_some_of_unit u (digitsToNat ds) (splitNumberUnit_some_unit _ ds u hs)
    simp only [hs, hud, hp]
    constructor
    · intro h
      exact absurd h (by simp)
    · intro h
      rw [specRegexBool_of_some _ ds u hs] at h
      exact absurd h (by simp)

/-- C8 counterexample: the raw value " 1d " does not match
`^(\d+)([hdwy])$` case-insensitively, yet computeExpiry accepts it (the
code strips whitespace before matching), so the claimed iff on the raw
value is false. -/
theorem c8_counterexample :
    parseExpiresLabel " 1d " ⟨"2025-01-01T00:00:00Z", some 1735689600⟩ =
      .ok (1735689600 + 86400) ∧
    specExpiresRegexMatches " 1d " = false := by
  constructor
  · decide
  · decide

/-- C8 witness for the amended iff, at the concrete value "xyz" and a
parseable timestamp. -/
theorem c8_witness :
    (parseExpiresLabel "xyz" ⟨"2025-01-01T00:00:00Z", some 1735689600⟩ =
        .error invalidFormatMsg ↔
      specExpiresRegexMatches (stripStr "xyz") = false) ∧
    parseExpiresLabel "xyz" ⟨"2025-01-01T00:00:00Z", some 1735689600⟩ =
      .error invalidFormatMsg :=
  ⟨c8_invalid_format_iff "xyz" ⟨"2025-01-01T00:00:00Z", some 1735689600⟩ 1735689600 rfl,
   by decide⟩

/-! ## Claim C1: the management-cluster guard -/

/-- C1: a record named "host-cluster" is always protected with the
management-cluster reason, whatever the policy configuration, the labels
(including a valid far-future expires label), and the current time: the
guard is the first rule and no later rule is consulted. -/
theorem c1_host_cluster_guard (rm : RegexMatch) (cfg : DeletionCriteria) (now : Int)
    (kc : KommanderCluster) (h : kc.name = "host-cluster") :
    matchesCriteria rm cfg now kc = (false, mgmtReason) := by
  unfold matchesCriteria
  rw [if_pos h]

/-- C1 witness: a concrete host-cluster record with a fully valid,
far-future expires label, a policy protecting nothing, and labels that
would otherwise fail validation. -/
theorem c1_witness :
    matchesCriteria (fun _ _ => false)
      ⟨[], [], [⟨"owner", none, some "^a$"⟩]⟩ 1735689600
      ⟨"host-cluster", "kommander", [("expires", "100y")],
        some ⟨"2025-01-01T00:00:00Z", some 1735689600⟩,
        some "host-cluster", some "default"⟩ = (false, mgmtReason) :=
  c1_host_cluster_guard _ _ _ _ rfl

/-! ## Claim C4: the expiry-evaluation step -/

theorem matchesCriteria_expiry_step (rm : RegexMatch) (cfg : DeletionCriteria)
    (now : Int) (kc : KommanderCluster) (v : String) (ts : Timestamp) (expiry : Int)
    (hname : kc.name ≠ "host-cluster")
    (hprot : isClusterProtected rm cfg kc.name kc.nspace = false)
    (hexp : lookupLabel kc.labels "expires" = some v)
    (hval : validateExtraLabels rm cfg kc.labels = [])
    (hts : kc.creationTimestamp = some ts)
    (hraw : ts.raw ≠ "")
    (hparse : parseExpiresLabel v ts = .ok expiry) :
    matchesCriteria rm cfg now kc =
      if now ≥ expiry then (true, expiredReason ts.raw v)
      else (false, notExpiredReason (expiry - now).toNat) := by
  have hw : timestampTruthy (some ts) = true := by simp [timestampTruthy, hraw]
  unfold matchesCriteria
  rw [if_neg hname, if_neg (by simp [hprot]), hexp]
  simp only [hval, hts, hw, Bool.true_eq_false, if_false, hparse]

/-- C4: for a record that reaches the expiry-evaluation step (not the
host cluster, not policy-protected, expires label present and valid,
required labels valid, truthy parseable creation timestamp) with a
well-formed expires value: the decision is Delete with the
cluster-has-expired reason when now is at or past the expiry instant, and
otherwise Protect with the not-expired-yet reason, whose remaining time
is the floor in whole days when at least one day remains and the floor in
whole hours otherwise. -/
theorem c4_expiry_evaluation (rm : RegexMatch) (cfg : DeletionCriteria)
    (now : Int) (kc : KommanderCluster) (v : String) (ts : Timestamp) (expiry : Int)
    (hname : kc.name ≠ "host-cluster")
    (hprot : isClusterProtected rm cfg kc.name kc.nspace = false)
    (hexp : lookupLabel kc.labels "expires" = some v)
    (hval : validateExtraLabels rm cfg kc.labels = [])
    (hts : kc.creationTimestamp = some ts)
    (hraw : ts.raw ≠ "")
    (hparse : parseExpiresLabel v ts = .ok expiry) :
    (now ≥ expiry → matchesCriteria rm cfg now kc = (true, expiredReason ts.raw v)) ∧
    (now < expiry → 86400 ≤ expiry - now →
      matchesCriteria rm cfg now kc =
        (false, "Cluster has not expired yet (expires in ~" ++
          toString ((expiry - now).toNat / 86400) ++ "d)") ∧
      (((expiry - now).toNat / 86400 : Nat) : Int) * 86400 ≤ expiry - now ∧
      expiry - now < (((expiry - now).toNat / 86400 : Nat) + 1 : Nat) * 86400) ∧
    (now < expiry → expiry - now < 86400 →
      matchesCriteria rm cfg now kc =
        (false, "Cluster has not expired yet (expires in ~" ++
          toString ((expiry - now).toNat / 3600) ++ "h)") ∧
      (((expiry - now).toNat / 3600 : Nat) : Int) * 3600 ≤ expiry - now ∧
      expiry - now < (((expiry - now).toNat / 3600 : Nat) + 1 : Nat) * 3600) := by
  have hstep := matchesCriteria_expiry_step rm cfg now kc v ts expiry
    hname hprot hexp hval hts hraw hparse
  refine ⟨fun hge => ?_, fun hlt hday => ?_, fun hlt hhour => ?_⟩
  · rw [hstep, if_pos hge]
  · have hremnn : (0 : Int) ≤ expiry - now := by omega
    have hrem : ((expiry - now).toNat : Int) = expiry - now := Int.toNat_of_nonneg hremnn
    have hdays : (expiry - now).toNat / 86400 > 0 := by
      have : 86400 ≤ (expiry - now).toNat := by omega
      omega
    refine ⟨?_, ?_, ?_⟩
    · rw [hstep, if_neg (by omega)]
      simp only [notExpiredReason, if_pos hdays]
    · omega
    · omega
  · have hremnn : (0 : Int) ≤ expiry - now := by omega
    have hrem : ((expiry - now).toNat : Int) = expiry - now := Int.toNat_of_nonneg hremnn
    have hdays : ¬ ((expiry - now).toNat / 86400 > 0) := by
      have : (expiry - now).toNat < 86400 := by omega
      omega
    have hmod : (expiry - now).toNat % 86400 = (expiry - now).toNat :=
      Nat.mod_eq_of_lt (by omega)
    refine ⟨?_, ?_, ?_⟩
    · rw [hstep, if_neg (by omega)]
      simp only [notExpiredReason, if_neg hdays, hmod]
    · omega
    · omega

/-- C4 witness: a cluster with expires "2d" created 47 hours before now
yields Protect with remaining time floored to "~1d"; with now moved past
expiry it yields Delete with the expired reason. -/
theorem c4_witness :
    ((169200 : Int) ≥ 172800 →
      matchesCriteria (fun _ _ => false) ⟨[], [], []⟩ 169200
        ⟨"dev-1", "default", [("expires", "2d")],
          some ⟨"2025-01-01T00:00:00Z", some 0⟩, some "dev-1", some "default"⟩ =
        (true, expiredReason "2025-01-01T00:00:00Z" "2d")) ∧
    ((169200 : Int) < 172800 → (86400 : Int) ≤ 172800 - 169200 →
      matchesCriteria (fun _ _ => false) ⟨[], [], []⟩ 169200
        ⟨"dev-1", "default", [("expires", "2d")],
          some ⟨"2025-01-01T00:00:00Z", some 0⟩, some "dev-1", some "default"⟩ =
        (false, "Cluster has not expired yet (expires in ~" ++
          toString (((172800 : Int) - 169200).toNat / 86400) ++ "d)") ∧
      ((((172800 : Int) - 169200).toNat / 86400 : Nat) : Int) * 86400 ≤ 172800 - 169200 ∧
      (172800 : Int) - 169200 < ((((172800 : Int) - 169200).toNat / 86400 : Nat) + 1 : Nat) * 86400) ∧
    ((169200 : Int) < 172800 → (172800 : Int) - 169200 < 86400 →
      matchesCriteria (fun _ _ => false) ⟨[], [], []⟩ 169200
        ⟨"dev-1", "default", [("expires", "2d")],
          some ⟨"2025-01-01T00:00:00Z", some 0⟩, some "dev-1", some "default"⟩ =
        (false, "Cluster has not expired yet (expires in ~" ++
          toString (((172800 : Int) - 169200).toNat / 3600) ++ "h)") ∧
      ((((172800 : Int) - 169200).toNat / 3600 : Nat) : Int) * 3600 ≤ 172800 - 169200 ∧
      (172800 : Int) - 169200 < ((((172800 : Int) - 169200).toNat / 3600 : Nat) + 1 : Nat) * 3600) :=
  c4_expiry_evaluation (fun _ _ => false) ⟨[], [], []⟩ 169200
    ⟨"dev-1", "default", [("expires", "2d")],
      some ⟨"2025-01-01T00:00:00Z", some 0⟩, some "dev-1", some "default"⟩
    "2d" ⟨"2025-01-01T00:00:00Z", some 0⟩ 172800
    (by decide) rfl rfl rfl rfl (by decide) (by decide)

/-! ## Helper lemmas: the delete/excluded partition -/

theorem classifyOne_eq (rm : RegexMatch) (cfg : DeletionCriteria)
    (capiExists : CapiOracle) (now : Int) (kc : KommanderCluster) :
    classifyOne rm cfg capiExists now kc =
      if (matchesCriteria rm cfg now kc).1 = true then
        if (truthyOptStr kc.capi_name && truthyOptStr kc.capi_nspace) = true then
          if capiExists (kc.capi_name.getD "") (kc.capi_nspace.getD "") = true then
            .inl (mkCombinedInfo kc, (matchesCriteria rm cfg now kc).2)
          else .inr (mkCombinedInfo kc,
            "Referenced CAPI cluster " ++ kc.capi_name.getD "" ++ " not found")
        else .inr (mkCombinedInfo kc, "No valid CAPI cluster reference")
      else .inr (mkCombinedInfo kc, (matchesCriteria rm cfg now kc).2) := rfl

theorem classifyOne_inl_fst (rm : RegexMatch) (cfg : DeletionCriteria)
    (capiExists : CapiOracle) (now : Int) (kc : KommanderCluster)
    (p : CombinedInfo × String)
    (h : classifyOne rm cfg capiExists now kc = .inl p) :
    p.1 = mkCombinedInfo kc := by
  rw [classifyOne_eq] at h
  by_cases h1 : (matchesCriteria rm cfg now kc).1 = true
  · by_cases h2 : (truthyOptStr kc.capi_name && truthyOptStr kc.capi_nspace) = true
    · by_cases h3 : capiExists (kc.capi_name.getD "") (kc.capi_nspace.getD "") = true
      · rw [if_pos h1, if_pos h2, if_pos h3] at h
        exact (congrArg Prod.fst (Sum.inl.inj h)).symm
      · rw [if_pos h1, if_pos h2, if_neg h3] at h
        exact absurd h (by simp)
    · rw [if_pos h1, if_neg h2] at h
      exact absurd h (by simp)
  · rw [if_neg h1] at h
    exact absurd h (by simp)

theorem classifyOne_inr_fst (rm : RegexMatch) (cfg : DeletionCriteria)
    (capiExists : CapiOracle) (now : Int) (kc : KommanderCluster)
    (p : CombinedInfo × String)
    (h : classifyOne rm cfg capiExists now kc = .inr p) :
    p.1 = mkCombinedInfo kc := by
  rw [classifyOne_eq] at h
  by_cases h1 : (matchesCriteria rm cfg now kc).1 = true
  · by_cases h2 : (truthyOptStr kc.capi_name && truthyOptStr kc.capi_nspace) = true
    · by_cases h3 : capiExists (kc.capi_name.getD "") (kc.capi_nspace.getD "") = true
      · rw [if_pos h1, if_pos h2, if_pos h3] at h
        exact absurd h (by simp)
      · rw [if_pos h1, if_pos h2, if_neg h3] at h
        exact (congrArg Prod.fst (Sum.inr.inj h)).symm
    · rw [if_pos h1, if_neg h2] at h
      exact (congrArg Prod.fst (Sum.inr.inj h)).symm
  · rw [if_neg h1] at h
    exact (congrArg Prod.fst (Sum.inr.inj h)).symm

theorem classifyOne_inl_elim (rm : RegexMatch) (cfg : DeletionCriteria)
    (capiExists : CapiOracle) (now : Int) (kc : KommanderCluster)
    (p : CombinedInfo × String)
    (h : classifyOne rm cfg capiExists now kc = .inl p) :
    p = (mkCombinedInfo kc, (matchesCriteria rm cfg now kc).2) ∧
    (matchesCriteria rm cfg now kc).1 = true ∧
    (truthyOptStr kc.capi_name && truthyOptStr kc.capi_nspace) = true ∧
    capiExists (kc.capi_name.getD "") (kc.capi_nspace.getD "") = true := by
  rw [classifyOne_eq] at h
  by_cases h1 : (matchesCriteria rm cfg now kc).1 = true
  · by_cases h2 : (truthyOptStr kc.capi_name && truthyOptStr kc.capi_nspace) = true
    · by_cases h3 : capiExists (kc.capi_name.getD "") (kc.capi_nspace.getD "") = true
      · rw [if_pos h1, if_pos h2, if_pos h3] at h
        exact ⟨(Sum.inl.inj h).symm, h1, h2, h3⟩
      · rw [if_pos h1, if_pos h2, if_neg h3] at h
        exact absurd h (by simp)
    · rw [if_pos h1, if_neg h2] at h
      exact absurd h (by simp)
  · rw [if_neg h1] at h
    exact absurd h (by simp)

theorem classifyOne_inr_of_protect (rm : RegexMatch) (cfg : DeletionCriteria)
    (capiExists : CapiOracle) (now : Int) (kc : KommanderCluster)
    (h : (matchesCriteria rm cfg now kc).1 = false) :
    classifyOne rm cfg capiExists now kc =
      .inr (mkCombinedInfo kc, (matchesCriteria rm cfg now kc).2) := by
  rw [classifyOne_eq, if_neg (by simp [h])]

theorem classifyOne_inr_of_bad_ref (rm : RegexMatch) (cfg : DeletionCriteria)
    (capiExists : CapiOracle) (now : Int) (kc : KommanderCluster)
    (hdel : (matchesCriteria rm cfg now kc).1 = true)
    (hbad : (truthyOptStr kc.capi_name && truthyOptStr kc.capi_nspace) = false ∨
      capiExists (kc.capi_name.getD "") (kc.capi_nspace.getD "") = false) :
    classifyOne rm cfg capiExists now kc =
      .inr (mkCombinedInfo kc,
        if (truthyOptStr kc.capi_name && truthyOptStr kc.capi_nspace) = true then
          "Referenced CAPI cluster " ++ kc.capi_name.getD "" ++ " not found"
        else "No valid CAPI cluster reference") := by
  rw [classifyOne_eq, if_pos hdel]
  rcases hbad with hb | hb
  · rw [if_neg (by simp [hb]), if_neg (by simp [hb])]
  · by_cases ht : (truthyOptStr kc.capi_name && truthyOptStr kc.capi_nspace) = true
    · rw [if_pos ht, if_neg (by simp [hb]), if_pos ht]
    · rw [if_neg ht, if_neg ht]

theorem mem_gcwe_delete (rm : RegexMatch) (cfg : DeletionCriteria)
    (capiExists : CapiOracle) (now : Int) (clusters : List KommanderCluster)
    (p : CombinedInfo × String) :
    p ∈ (getClustersWithExclusions rm cfg capiExists now clusters).1 ↔
      ∃ kc ∈ clusters, classifyOne rm cfg capiExists now kc = .inl p := by
  induction clusters with
  | nil => simp [getClustersWithExclusions]
  | cons kc rest ih =>
    unfold getClustersWithExclusions
    rcases hc : classifyOne rm cfg capiExists now kc with q | q
    · simp only [List.mem_cons, ih]
      constructor
      · rintro (rfl | ⟨kc2, h2, h3⟩)
        · exact ⟨kc, by simp, hc⟩
        · exact ⟨kc2, by simp [h2], h3⟩
      · rintro ⟨kc2, h2, h3⟩
        rcases h2 with rfl | h2
        · rw [hc] at h3
          exact Or.inl (Sum.inl.inj h3).symm
        · exact Or.inr ⟨kc2, h2, h3⟩
    · simp only [ih]
      constructor
      · rintro ⟨kc2, h2, h3⟩
        exact ⟨kc2, by simp [h2], h3⟩
      · rintro ⟨kc2, h2, h3⟩
        rcases List.mem_cons.mp h2 with rfl | h2
        · rw [hc] at h3
          exact absurd h3 (by simp)
        · exact ⟨kc2, h2, h3⟩

theorem mem_gcwe_excluded (rm : RegexMatch) (cfg : DeletionCriteria)
    (capiExists : CapiOracle) (now : Int) (clusters : List KommanderCluster)
    (p : CombinedInfo × String) :
    p ∈ (getClustersWithExclusions rm cfg capiExists now clusters).2 ↔
      ∃ kc ∈ clusters, classifyOne rm cfg capiExists now kc = .inr p := by
  induction clusters with
  | nil => simp [getClustersWithExclusions]
  | cons kc rest ih =>
    unfold getClustersWithExclusions
    rcases hc : classifyOne rm cfg capiExists now kc with q | q
    · simp only [ih]
      constructor
      · rintro ⟨kc2, h2, h3⟩
        exact ⟨kc2, by simp [h2], h3⟩
      · rintro ⟨kc2, h2, h3⟩
        rcases List.mem_cons.mp h2 with rfl | h2
        · rw [hc] at h3
          exact absurd h3 (by simp)
        · exact ⟨kc2, h2, h3⟩
    · simp only [List.mem_cons, ih]
      constructor
      · rintro (rfl | ⟨kc2, h2, h3⟩)
        · exact ⟨kc, by simp, hc⟩
        · exact ⟨kc2, by simp [h2], h3⟩
      · rintro ⟨kc2, h2, h3⟩
        rcases h2 with rfl | h2
        · rw [hc] at h3
          exact Or.inl (Sum.inr.inj h3).symm
        · exact Or.inr ⟨kc2, h2, h3⟩

/-! ## Claim C2: unresolvable CAPI references are never deleted -/

/-- C2: a record whose decision is Delete but whose CAPI reference is
absent (or fails the existence check) is never placed in the delete-set;
it lands in the excluded set with reason "No valid CAPI cluster
reference" (absent/empty reference) or "Referenced CAPI cluster <name>
not found" (reference present but unverifiable). -/
theorem c2_capi_safety_fallback (rm : RegexMatch) (cfg : DeletionCriteria)
    (capiExists : CapiOracle) (now : Int) (clusters : List KommanderCluster)
    (kc : KommanderCluster) (hkc : kc ∈ clusters)
    (hdel : (matchesCriteria rm cfg now kc).1 = true)
    (hbad : (truthyOptStr kc.capi_name && truthyOptStr kc.capi_nspace) = false ∨
      capiExists (kc.capi_name.getD "") (kc.capi_nspace.getD "") = false) :
    (∀ p ∈ (getClustersWithExclusions rm cfg capiExists now clusters).1,
      p.1.kommander_cluster ≠ kc) ∧
    (mkCombinedInfo kc,
      if (truthyOptStr kc.capi_name && truthyOptStr kc.capi_nspace) = true then
        "Referenced CAPI cluster " ++ kc.capi_name.getD "" ++ " not found"
      else "No valid CAPI cluster reference") ∈
      (getClustersWithExclusions rm cfg capiExists now clusters).2 := by
  constructor
  · intro p hp heq
    obtain ⟨kc2, -, h3⟩ := (mem_gcwe_delete rm cfg capiExists now clusters p).mp hp
    have hfst := classifyOne_inl_fst rm cfg capiExists now kc2 p h3
    have hkc2 : kc2 = kc := by
      have : p.1.kommander_cluster = kc2 := by rw [hfst]; rfl
      rw [← this, heq]
    subst hkc2
    obtain ⟨-, -, ht, hex⟩ := classifyOne_inl_elim rm cfg capiExists now kc2 p h3
    rcases hbad with hb | hb
    · rw [ht] at hb
      exact absurd hb (by simp)
    · rw [hex] at hb
      exact absurd hb (by simp)
  · exact (mem_gcwe_excluded rm cfg capiExists now clusters _).mpr
      ⟨kc, hkc, classifyOne_inr_of_bad_ref rm cfg capiExists now kc hdel hbad⟩

/-- C2 witness: a concrete cluster due for deletion (missing expires
label) whose CAPI reference fails the existence check is excluded with
the referenced-not-found reason. -/
theorem c2_witness :
    (∀ p ∈ (getClustersWithExclusions (fun _ _ => false) ⟨[], [], []⟩ (fun _ _ => false) 0
        [⟨"dev-gone", "default", [], none, some "dev-gone", some "default"⟩]).1,
      p.1.kommander_cluster ≠
        ⟨"dev-gone", "default", [], none, some "dev-gone", some "default"⟩) ∧
    (mkCombinedInfo ⟨"dev-gone", "default", [], none, some "dev-gone", some "default"⟩,
      if (truthyOptStr (some "dev-gone") && truthyOptStr (some "default")) = true then
        "Referenced CAPI cluster " ++ (some "dev-gone").getD "" ++ " not found"
      else "No valid CAPI cluster reference") ∈
      (getClustersWithExclusions (fun _ _ => false) ⟨[], [], []⟩ (fun _ _ => false) 0
        [⟨"dev-gone", "default", [], none, some "dev-gone", some "default"⟩]).2 :=
  c2_capi_safety_fallback (fun _ _ => false) ⟨[], [], []⟩ (fun _ _ => false) 0
    [⟨"dev-gone", "default", [], none, some "dev-gone", some "default"⟩]
    ⟨"dev-gone", "default", [], none, some "dev-gone", some "default"⟩
    (by simp) (by decide) (Or.inr rfl)

/-! ## Claim C10: the partition invariant -/

/-- C10: `get_clusters_with_exclusions` partitions the listed records:
the two output lists' lengths sum to the input length, and the multiset of
underlying records across both outputs is exactly the input (no record
dropped or duplicated). -/
theorem c10_partition (rm : RegexMatch) (cfg : DeletionCriteria)
    (capiExists : CapiOracle) (now : Int) (clusters : List KommanderCluster) :
    (getClustersWithExclusions rm cfg capiExists now clusters).1.length +
      (getClustersWithExclusions rm cfg capiExists now clusters).2.length =
      clusters.length ∧
    List.Perm
      ((getClustersWithExclusions rm cfg capiExists now clusters).1.map
          (fun p => p.1.kommander_cluster) ++
        (getClustersWithExclusions rm cfg capiExists now clusters).2.map
          (fun p => p.1.kommander_cluster))
      clusters := by
  induction clusters with
  | nil => simp [getClustersWithExclusions]
  | cons kc rest ih =>
    unfold getClustersWithExclusions
    rcases hc : classifyOne rm cfg capiExists now kc with q | q
    · have hq : q.1.kommander_cluster = kc := by
        rw [classifyOne_inl_fst rm cfg capiExists now kc q hc]
        rfl
      constructor
      · simp only [List.length_cons]
        omega
      · simp only [List.map_cons, List.cons_append, hq]
        exact (ih.2).cons kc
    · have hq : q.1.kommander_cluster = kc := by
        rw [classifyOne_inr_fst rm cfg capiExists now kc q hc]
        rfl
      constructor
      · simp only [List.length_cons]
        omega
      · simp only [List.map_cons, hq]
        exact List.perm_middle.trans ((ih.2).cons kc)

/-! ## Helper lemmas: the history store -/

theorem storeLookup_nil (k : String) : storeLookup [] k = none := rfl

theorem storeLookup_cons (p : String × (List String × Int)) (rest : HistStore)
    (k : String) :
    storeLookup (p :: rest) k = if p.1 = k then some p.2 else storeLookup rest k := by
  unfold storeLookup
  by_cases h : p.1 = k <;> simp [List.find?, h]

theorem storeSevs_cons (p : String × (List String × Int)) (rest : HistStore)
    (k : String) :
    storeSevs (p :: rest) k = if p.1 = k then p.2.1 else storeSevs rest k := by
  unfold storeSevs
  rw [storeLookup_cons]
  by_cases h : p.1 = k <;> simp [h]

theorem storeSevs_expire (st : HistStore) (k0 : String) (t : Int) (k : String) :
    storeSevs (storeExpire st k0 t) k = storeSevs st k := by
  induction st with
  | nil => rfl
  | cons p rest ih =>
    unfold storeExpire
    by_cases hp : p.1 = k0
    · rw [if_pos hp, storeSevs_cons, storeSevs_cons]
    · rw [if_neg hp, storeSevs_cons, storeSevs_cons, ih]

theorem mem_storeSevs_sadd_self (st : HistStore) (k sev : String) :
    sev ∈ storeSevs (storeSadd st k sev) k := by
  induction st with
  | nil => simp [storeSadd, storeSevs_cons]
  | cons p rest ih =>
    unfold storeSadd
    by_cases hp : p.1 = k
    · rw [if_pos hp, storeSevs_cons, if_pos hp]
      by_cases hs : sev ∈ p.2.1 <;> simp [hs]
    · rw [if_neg hp, storeSevs_cons, if_neg hp]
      exact ih

theorem mem_storeSevs_sadd_mono (st : HistStore) (k0 s0 k a : String)
    (h : a ∈ storeSevs st k) : a ∈ storeSevs (storeSadd st k0 s0) k := by
  induction st with
  | nil => simp [storeSevs, storeLookup_nil] at h
  | cons p rest ih =>
    rw [storeSevs_cons] at h
    unfold storeSadd
    by_cases hp : p.1 = k0
    · rw [if_pos hp, storeSevs_cons]
      by_cases hk : p.1 = k
      · rw [if_pos hk]
        rw [if_pos hk] at h
        by_cases hs : s0 ∈ p.2.1 <;> simp [hs, h]
      · rw [if_neg hk]
        rw [if_neg hk] at h
        exact h
    · rw [if_neg hp, storeSevs_cons]
      by_cases hk : p.1 = k
      · rw [if_pos hk]
        rw [if_pos hk] at h
        exact h
      · rw [if_neg hk]
        rw [if_neg hk] at h
        exact ih h

theorem hasBeenNotified_mark_self (st : HistStore) (n ns sev : String) (ttl : Int) :
    hasBeenNotified (markAsNotified st n ns sev ttl) n ns sev = true := by
  unfold hasBeenNotified markAsNotified
  rw [storeSevs_expire]
  simpa using mem_storeSevs_sadd_self st (getClusterKey n ns) sev

theorem hasBeenNotified_mark_mono (st : HistStore) (n0 ns0 s0 : String) (ttl : Int)
    (n ns sev : String) (h : hasBeenNotified st n ns sev = true) :
    hasBeenNotified (markAsNotified st n0 ns0 s0 ttl) n ns sev = true := by
  unfold hasBeenNotified at h ⊢
  unfold markAsNotified
  rw [storeSevs_expire]
  simp only [decide_eq_true_eq] at h ⊢
  exact mem_storeSevs_sadd_mono st (getClusterKey n0 ns0) s0 (getClusterKey n ns) sev h

theorem hasBeenNotified_markClusters_mono (clusters : List NotifEntry) (sev0 : String)
    (st : HistStore) (n ns sev : String) (h : hasBeenNotified st n ns sev = true) :
    hasBeenNotified (mark_clusters_as_notified st clusters sev0) n ns sev = true := by
  induction clusters generalizing st with
  | nil => exact h
  | cons e rest ih =>
    unfold mark_clusters_as_notified
    simp only [List.foldl_cons]
    exact ih _ (hasBeenNotified_mark_mono st (histName e) (histNspace e) sev0 30 n ns sev h)

theorem hasBeenNotified_markClusters_of_mem (st : HistStore) (clusters : List NotifEntry)
    (sev : String) (e : NotifEntry) (he : e ∈ clusters) :
    hasBeenNotified (mark_clusters_as_notified st clusters sev)
      (histName e) (histNspace e) sev = true := by
  induction clusters generalizing st with
  | nil => exact absurd he (by simp)
  | cons q rest ih =>
    unfold mark_clusters_as_notified
    simp only [List.foldl_cons]
    rcases List.mem_cons.mp he with rfl | he2
    · exact hasBeenNotified_markClusters_mono rest sev _ _ _ _
        (hasBeenNotified_mark_self st (histName e) (histNspace e) sev 30)
    · exact ih _ he2

/-! ## Claim C5: de-duplication round trip -/

/-- C5: for every history-store state, candidate list and severity,
marking the candidates as notified and then filtering the same candidates
returns the empty list, so an immediately repeated notify invocation
produces zero new notifications. -/
theorem c5_dedup_roundtrip (st : HistStore) (clusters : List NotifEntry) (sev : String) :
    filter_new_notifications (mark_clusters_as_notified st clusters sev) clusters sev = [] := by
  unfold filter_new_notifications
  rw [List.filter_eq_nil_iff]
  intro e he
  simp only [Bool.not_eq_eq_eq_not, Bool.not_true, Bool.not_eq_true]
  rw [hasBeenNotified_markClusters_of_mem st clusters sev e he]
  simp

/-! ## Helper lemmas: colon splitting and Redis key round-trips -/

theorem splitColon_cons (c : Char) (rest : List Char) :
    splitColon (c :: rest) =
      if c = ':' then [] :: splitColon rest
      else
        match splitColon rest with
        | [] => [[c]]
        | s :: ss => (c :: s) :: ss := by
  conv_lhs => unfold splitColon

theorem splitColon_ne_nil (l : List Char) : splitColon l ≠ [] := by
  cases l with
  | nil => simp [splitColon]
  | cons c rest =>
    unfold splitColon
    by_cases h : c = ':'
    · simp [h]
    · rw [if_neg h]
      rcases hs : splitColon rest with _ | ⟨s, ss⟩ <;> simp

theorem splitColon_no_colon (xs : List Char) (h : ∀ c ∈ xs, c ≠ ':') :
    splitColon xs = [xs] := by
  induction xs with
  | nil => rfl
  | cons c rest ih =>
    unfold splitColon
    rw [if_neg (h c (by simp))]
    rw [ih (fun x hx => h x (by simp [hx]))]

theorem splitColon_append_colon (xs ys : List Char) (h : ∀ c ∈ xs, c ≠ ':') :
    splitColon (xs ++ ':' :: ys) = xs :: splitColon ys := by
  induction xs with
  | nil => simp [splitColon]
  | cons c rest ih =>
    have hrec := ih (fun x hx => h x (by simp [hx]))
    simp only [List.cons_append]
    rw [splitColon_cons, if_neg (h c (by simp)), hrec]

theorem joinColon_splitColon (l : List Char) : joinColon (splitColon l) = l := by
  induction l with
  | nil => rfl
  | cons c rest ih =>
    unfold splitColon
    by_cases h : c = ':'
    · rw [if_pos h]
      rcases hs : splitColon rest with _ | ⟨s, ss⟩
      · exact absurd hs (splitColon_ne_nil rest)
      · rw [hs] at ih
        simp [joinColon, ih, h]
    · rw [if_neg h]
      rcases hs : splitColon rest with _ | ⟨s, ss⟩
      · exact absurd hs (splitColon_ne_nil rest)
      · rw [hs] at ih
        cases ss with
        | nil => simp only [joinColon] at ih ⊢; rw [ih]
        | cons s2 ss2 => simp only [joinColon] at ih ⊢; rw [List.cons_append, ih]

theorem listStartsWith_self_append (l m : List Char) :
    listStartsWith l (l ++ m) = true := by
  induction l with
  | nil => rfl
  | cons c cs ih => simp [listStartsWith, ih]

theorem listStartsWith_ex (pat l : List Char) (h : listStartsWith pat l = true) :
    ∃ m, l = pat ++ m := by
  induction pat generalizing l with
  | nil => exact ⟨l, rfl⟩
  | cons p ps ih =>
    cases l with
    | nil => simp [listStartsWith] at h
    | cons c cs =>
      simp only [listStartsWith, Bool.and_eq_true, decide_eq_true_eq] at h
      obtain ⟨m, hm⟩ := ih cs h.2
      exact ⟨m, by simp [h.1, hm]⟩

theorem stringDataExt (s t : String) (h : s.data = t.data) : s = t := by
  cases s
  cases t
  exact congrArg String.mk h

/-- The fixed Redis key prefix decomposes as two colon-free segments. -/
theorem prefix_decomp :
    "notifications:cluster:".data =
      "notifications".data ++ ':' :: ("cluster".data ++ ':' :: ([] : List Char)) := by
  decide

theorem splitColon_prefix_append (rest : List Char) :
    splitColon ("notifications:cluster:".data ++ rest) =
      "notifications".data :: "cluster".data :: splitColon rest := by
  have h1 : "notifications:cluster:".data ++ rest =
      "notifications".data ++ ':' :: ("cluster".data ++ ':' :: rest) := by
    rw [prefix_decomp]
    simp
  rw [h1, splitColon_append_colon _ _ (by decide),
      splitColon_append_colon _ _ (by decide)]

theorem getClusterKey_data (name ns : String) :
    (getClusterKey name ns).data =
      "notifications:cluster:".data ++ (ns.data ++ ':' :: name.data) := by
  unfold getClusterKey
  simp [String.data_append]

theorem parseNotifiedKey_getClusterKey (name ns : String)
    (hn : ∀ c ∈ name.data, c ≠ ':') (hns : ∀ c ∈ ns.data, c ≠ ':') :
    parseNotifiedKey (getClusterKey name ns) = some (name, ns) := by
  have hdata := getClusterKey_data name ns
  have hsplit : splitColon (getClusterKey name ns).data =
      "notifications".data :: "cluster".data :: ns.data :: [name.data] := by
    rw [hdata, splitColon_prefix_append, splitColon_append_colon _ _ hns,
        splitColon_no_colon _ hn]
  unfold parseNotifiedKey
  rw [if_pos, hsplit]
  · simp [joinColon]
  · rw [hdata]
    exact listStartsWith_self_append _ _

theorem parseNotifiedKey_roundtrip (k : String) (n2 ns2 : String)
    (h : parseNotifiedKey k = some (n2, ns2)) :
    getClusterKey n2 ns2 = k := by
  unfold parseNotifiedKey at h
  by_cases hsw : listStartsWith "notifications:cluster:".data k.data = true
  · rw [if_pos hsw] at h
    obtain ⟨rest, hrest⟩ := listStartsWith_ex _ _ hsw
    have hsplit : splitColon k.data =
        "notifications".data :: "cluster".data :: splitColon rest := by
      rw [hrest, splitColon_prefix_append]
    rw [hsplit] at h
    rcases hr : splitColon rest with _ | ⟨r0, rs⟩
    · exact absurd hr (splitColon_ne_nil rest)
    rw [hr] at h
    cases rs with
    | nil => simp at h
    | cons r1 rs2 =>
      simp only [List.length_cons, List.getD, List.drop] at h
      rw [if_pos (by omega)] at h
      have hn2 : n2 = String.mk (joinColon (r1 :: rs2)) :=
        (congrArg Prod.fst (Option.some.inj h)).symm
      have hns2 : ns2 = String.mk r0 := by
        have := (congrArg Prod.snd (Option.some.inj h)).symm
        simpa using this
      have hjoin : joinColon (r0 :: r1 :: rs2) = rest := by
        rw [← hr, joinColon_splitColon]
      apply stringDataExt
      rw [getClusterKey_data, hn2, hns2, hrest, ← hjoin]
      rfl
  · rw [if_neg hsw] at h
    exact absurd h (by simp)

/-! ## Helper lemmas: the stale-history clearing loop -/

theorem storeDelete_cons (p : String × (List String × Int)) (rest : HistStore)
    (k : String) :
    storeDelete (p :: rest) k =
      if p.1 = k then storeDelete rest k else p :: storeDelete rest k := by
  unfold storeDelete
  by_cases h : p.1 = k <;> simp [List.filter_cons, h]

theorem storeLookup_delete_self (st : HistStore) (k : String) :
    storeLookup (storeDelete st k) k = none := by
  induction st with
  | nil => rfl
  | cons p rest ih =>
    rw [storeDelete_cons]
    by_cases h : p.1 = k
    · rw [if_pos h]
      exact ih
    · rw [if_neg h, storeLookup_cons, if_neg h]
      exact ih

theorem storeLookup_delete_other (st : HistStore) (k0 k : String) (h : k0 ≠ k) :
    storeLookup (storeDelete st k0) k = storeLookup st k := by
  induction st with
  | nil => rfl
  | cons p rest ih =>
    rw [storeDelete_cons, storeLookup_cons]
    by_cases hp : p.1 = k0
    · rw [if_pos hp]
      rw [if_neg (by rw [hp]; exact h)]
      exact ih
    · rw [if_neg hp, storeLookup_cons]
      by_cases hk : p.1 = k
      · rw [if_pos hk, if_pos hk]
      · rw [if_neg hk, if_neg hk]
        exact ih

theorem mem_get_all_of_lookup (st : HistStore) (k : String) (v : List String × Int)
    (n ns : String) (hl : storeLookup st k = some v)
    (hp : parseNotifiedKey k = some (n, ns)) :
    ({ cluster_name := n, nspace := ns, severities := v.1, ttl_seconds := v.2 } :
      NotifiedCluster) ∈ get_all_notified_clusters st := by
  unfold storeLookup at hl
  rcases hf : st.find? (fun p => p.1 = k) with _ | q
  · rw [hf] at hl
    exact absurd hl (by simp)
  · rw [hf] at hl
    have hq : q.2 = v := by simpa using hl
    have hqk : q.1 = k := by simpa using List.find?_some hf
    have hmem := List.mem_of_find?_eq_some hf
    unfold get_all_notified_clusters
    rw [List.mem_filterMap]
    refine ⟨q, hmem, ?_⟩
    rw [hqk, hp, hq]

theorem get_all_mem_elim (st : HistStore) (nc : NotifiedCluster)
    (h : nc ∈ get_all_notified_clusters st) :
    ∃ kv ∈ st, parseNotifiedKey kv.1 = some (nc.cluster_name, nc.nspace) := by
  unfold get_all_notified_clusters at h
  rw [List.mem_filterMap] at h
  obtain ⟨kv, hmem, hf⟩ := h
  rcases hpk : parseNotifiedKey kv.1 with _ | nns
  · rw [hpk] at hf
    exact absurd hf (by simp)
  · rw [hpk] at hf
    obtain rfl := (Option.some.inj hf).symm
    refine ⟨kv, hmem, ?_⟩
    rw [hpk]

theorem cleanupFold_lookup_or_none (needed : List String) (l : List NotifiedCluster)
    (acc : HistStore × Nat) (k : String) :
    storeLookup (l.foldl (cleanupStep needed) acc).1 k = storeLookup acc.1 k ∨
    storeLookup (l.foldl (cleanupStep needed) acc).1 k = none := by
  induction l generalizing acc with
  | nil => exact Or.inl rfl
  | cons nc rest ih =>
    simp only [List.foldl_cons]
    rcases ih (cleanupStep needed acc nc) with h | h
    · rw [h]
      unfold cleanupStep
      by_cases hin : (nc.nspace ++ ":" ++ nc.cluster_name) ∈ needed
      · rw [if_pos hin]
        exact Or.inl rfl
      · rw [if_neg hin]
        unfold clear_cluster_history
        by_cases hk : getClusterKey nc.cluster_name nc.nspace = k
        · rw [← hk]
          exact Or.inr (storeLookup_delete_self _ _)
        · exact Or.inl (storeLookup_delete_other _ _ _ hk)
    · exact Or.inr h

theorem cleanupFold_clears (needed : List String) (l : List NotifiedCluster)
    (acc : HistStore × Nat) (nc : NotifiedCluster) (hmem : nc ∈ l)
    (hnin : (nc.nspace ++ ":" ++ nc.cluster_name) ∉ needed) :
    storeLookup (l.foldl (cleanupStep needed) acc).1
      (getClusterKey nc.cluster_name nc.nspace) = none := by
  induction l generalizing acc with
  | nil => exact absurd hmem (by simp)
  | cons q rest ih =>
    simp only [List.foldl_cons]
    rcases List.mem_cons.mp hmem with rfl | hmem2
    · have hstep : storeLookup (cleanupStep needed acc nc).1
          (getClusterKey nc.cluster_name nc.nspace) = none := by
        unfold cleanupStep
        rw [if_neg hnin]
        exact storeLookup_delete_self _ _
      rcases cleanupFold_lookup_or_none needed rest (cleanupStep needed acc nc)
          (getClusterKey nc.cluster_name nc.nspace) with h | h
      · rw [h, hstep]
      · exact h
    · exact ih _ hmem2

theorem cleanupFold_untouched (needed : List String) (l : List NotifiedCluster)
    (acc : HistStore × Nat) (k : String)
    (hall : ∀ nc ∈ l, getClusterKey nc.cluster_name nc.nspace ≠ k ∨
      (nc.nspace ++ ":" ++ nc.cluster_name) ∈ needed) :
    storeLookup (l.foldl (cleanupStep needed) acc).1 k = storeLookup acc.1 k := by
  induction l generalizing acc with
  | nil => rfl
  | cons q rest ih =>
    simp only [List.foldl_cons]
    rw [ih (cleanupStep needed acc q) (fun nc h => hall nc (List.mem_cons_of_mem q h))]
    unfold cleanupStep
    rcases hall q (by simp) with hne | hin
    · by_cases hq : (q.nspace ++ ":" ++ q.cluster_name) ∈ needed
      · rw [if_pos hq]
      · rw [if_neg hq]
        exact storeLookup_delete_other _ _ _ hne
    · rw [if_pos hin]

/-! ## Claim C6: stale-history reconciliation -/

/-- C6: on a notify invocation (thresholds accepted, so
`get_clusters_for_notification` returns the pair of lists), for every
colon-free cluster key (namespace, name): if it is not among the keys
currently requiring any notification, the cleanup clears its whole
history (`hasBeenNotified` is false afterwards for both severities); if
it is among them, its stored history entry is left untouched. -/
theorem c6_stale_cleanup (rm : RegexMatch) (cfg : DeletionCriteria)
    (capiExists : CapiOracle) (wth cth now : Int) (clusters : List KommanderCluster)
    (st : HistStore) (crit warn : List NotifEntry) (name ns : String)
    (hok : getClustersForNotification rm cfg capiExists wth cth now clusters =
      .ok (crit, warn))
    (hn : ∀ c ∈ name.data, c ≠ ':') (hns : ∀ c ∈ ns.data, c ≠ ':') :
    ∃ st2 cnt,
      cleanup_stale_notifications rm cfg capiExists wth cth now clusters st =
        .ok (st2, cnt) ∧
      ((ns ++ ":" ++ name) ∉ (crit ++ warn).map notifKey →
        hasBeenNotified st2 name ns "warning" = false ∧
        hasBeenNotified st2 name ns "critical" = false) ∧
      ((ns ++ ":" ++ name) ∈ (crit ++ warn).map notifKey →
        storeLookup st2 (getClusterKey name ns) =
          storeLookup st (getClusterKey name ns)) := by
  refine ⟨(cleanupPass ((crit ++ warn).map notifKey) st).1,
          (cleanupPass ((crit ++ warn).map notifKey) st).2, ?_, ?_, ?_⟩
  · unfold cleanup_stale_notifications
    rw [hok]
  · intro hnin
    have hlookup : storeLookup (cleanupPass ((crit ++ warn).map notifKey) st).1
        (getClusterKey name ns) = none := by
      unfold cleanupPass
      rcases hl : storeLookup st (getClusterKey name ns) with _ | v
      · rcases cleanupFold_lookup_or_none ((crit ++ warn).map notifKey)
            (get_all_notified_clusters st) (st, 0) (getClusterKey name ns) with h | h
        · rw [h]
          exact hl
        · exact h
      · have hmem := mem_get_all_of_lookup st _ v name ns hl
          (parseNotifiedKey_getClusterKey name ns hn hns)
        exact cleanupFold_clears _ _ (st, 0) ⟨name, ns, v.1, v.2⟩ hmem hnin
    constructor <;>
      · unfold hasBeenNotified storeSevs
        rw [hlookup]
        simp
  · intro hin
    unfold cleanupPass
    apply cleanupFold_untouched
    intro nc hnc
    by_cases hk : getClusterKey nc.cluster_name nc.nspace = getClusterKey name ns
    · right
      obtain ⟨kv, -, hpk⟩ := get_all_mem_elim st nc hnc
      have hkvk : kv.1 = getClusterKey nc.cluster_name nc.nspace :=
        (parseNotifiedKey_roundtrip kv.1 _ _ hpk).symm
      rw [hkvk, hk, parseNotifiedKey_getClusterKey name ns hn hns] at hpk
      have h1 : nc.cluster_name = name := (congrArg Prod.fst (Option.some.inj hpk)).symm
      have h2 : nc.nspace = ns := (congrArg Prod.snd (Option.some.inj hpk)).symm
      rw [h1, h2]
      exact hin
    · exact Or.inl hk

/-- C6 witness: a store holding warning history for a cluster that no
longer requires any notification (empty inventory) has that history
cleared by the cleanup pass. -/
theorem c6_witness :
    ∃ st2 cnt,
      cleanup_stale_notifications (fun _ _ => false) ⟨[], [], []⟩ (fun _ _ => false)
        80 95 0 [] [(getClusterKey "c1" "ns1", (["warning"], 100))] =
        .ok (st2, cnt) ∧
      (("ns1" ++ ":" ++ "c1") ∉
          ((([] : List NotifEntry) ++ ([] : List NotifEntry)).map notifKey) →
        hasBeenNotified st2 "c1" "ns1" "warning" = false ∧
        hasBeenNotified st2 "c1" "ns1" "critical" = false) ∧
      (("ns1" ++ ":" ++ "c1") ∈
          ((([] : List NotifEntry) ++ ([] : List NotifEntry)).map notifKey) →
        storeLookup st2 (getClusterKey "c1" "ns1") =
          storeLookup [(getClusterKey "c1" "ns1", (["warning"], 100))]
            (getClusterKey "c1" "ns1")) :=
  c6_stale_cleanup (fun _ _ => false) ⟨[], [], []⟩ (fun _ _ => false) 80 95 0 []
    [(getClusterKey "c1" "ns1", (["warning"], 100))] [] [] "c1" "ns1"
    (by decide) (by decide) (by decide)

/-! ## Helper lemmas: notification classification of delete-set entries -/

theorem parseExpiresLabel_ok_ne_empty (v : String) (ts : Timestamp) (e : Int)
    (h : parseExpiresLabel v ts = .ok e) : v ≠ "" := by
  intro hv
  subst hv
  have hnil : parseExpiresLabel "" ts = .error invalidFormatMsg := rfl
  rw [hnil] at h
  exact absurd h (by simp)

theorem validate_error_keyword (rm : RegexMatch) (cfg : DeletionCriteria)
    (labels : List (String × String)) (err : String)
    (h : err ∈ validateExtraLabels rm cfg labels) :
    missingLabelKeywords.any (fun k => containsSubstr (lowerStr err) k) = true := by
  unfold validateExtraLabels at h
  rw [List.mem_filterMap] at h
  obtain ⟨el, -, hel⟩ := h
  unfold extraLabelError at hel
  rcases hl : lookupLabel labels el.name with _ | v
  · simp only [hl] at hel
    have herr : err = "Missing required label \x27" ++ el.name ++ "\x27" :=
      (Option.some.inj hel).symm
    apply List.any_eq_true.mpr
    refine ⟨"missing required label", by simp [missingLabelKeywords], ?_⟩
    show listHasSub "missing required label".data (lowerStr err).data = true
    rw [herr]
    simp only [lowerStr, String.data_append, List.map_append]
    apply listHasSub_append_left
    apply listHasSub_append_left
    decide
  · simp only [hl] at hel
    by_cases hvv : validateValue rm el v = true
    · rw [if_pos hvv] at hel
      exact absurd hel (by simp)
    · rw [if_neg hvv] at hel
      rcases hrx : el.regex with _ | rx
      · exfalso
        apply hvv
        unfold validateValue
        rw [hrx]
      · rw [hrx] at hel
        have herr : err = "Label \x27" ++ el.name ++ "\x27 value \x27" ++ v ++
            "\x27 does not match pattern \x27" ++ rx ++ "\x27" :=
          (Option.some.inj hel).symm
        apply List.any_eq_true.mpr
        refine ⟨"does not match pattern", by simp [missingLabelKeywords], ?_⟩
        show listHasSub "does not match pattern".data (lowerStr err).data = true
        rw [herr]
        simp only [lowerStr, String.data_append, List.map_append]
        apply listHasSub_append_left
        apply listHasSub_append_left
        apply listHasSub_append_right
        decide

theorem matchesCriteria_true_elim (rm : RegexMatch) (cfg : DeletionCriteria)
    (now : Int) (kc : KommanderCluster)
    (h : (matchesCriteria rm cfg now kc).1 = true) :
    (matchesCriteria rm cfg now kc).2 = missingExpiresReason ∨
    (matchesCriteria rm cfg now kc).2 ∈ validateExtraLabels rm cfg kc.labels ∨
    (matchesCriteria rm cfg now kc).2 = missingCreationReason ∨
    timestampTruthy kc.creationTimestamp = true := by
  unfold matchesCriteria at h ⊢
  by_cases h1 : kc.name = "host-cluster"
  · rw [if_pos h1] at h
    exact absurd h (by simp)
  · rw [if_neg h1] at h ⊢
    by_cases h2 : isClusterProtected rm cfg kc.name kc.nspace = true
    · rw [if_pos h2] at h
      exact absurd h (by simp)
    · rw [if_neg h2] at h ⊢
      rcases hl : lookupLabel kc.labels "expires" with _ | v
      · left
        simp [hl]
      · rcases hv : validateExtraLabels rm cfg kc.labels with _ | ⟨e0, rest⟩
        · by_cases hts : timestampTruthy kc.creationTimestamp = false
          · right; right; left
            simp [hl, hv, hts]
          · right; right; right
            revert hts
            cases timestampTruthy kc.creationTimestamp <;> simp
        · right; left
          simp [hl, hv]

theorem classifyDeleteEntry_eq (now : Int) (p : CombinedInfo × String) :
    classifyDeleteEntry now p =
      if missingLabelKeywords.any (fun k => containsSubstr (lowerStr p.2) k) = true then
        some (p.1, (100 : ℚ), now)
      else if containsSubstr (lowerStr p.2) "expired" = true then
        if truthyOptStr (lookupLabel p.1.labels "expires") = true then
          if timestampTruthy p.1.kommander_cluster.creationTimestamp = true then
            match p.1.kommander_cluster.creationTimestamp with
            | some ts =>
              match parseExpiresLabel ((lookupLabel p.1.labels "expires").getD "") ts with
              | .ok e => some (p.1, (100 : ℚ), e)
              | .error _ => some (p.1, (100 : ℚ), now)
            | none => none
          else none
        else some (p.1, (100 : ℚ), now)
      else some (p.1, (100 : ℚ), now) := rfl

theorem classifyDeleteEntry_shape (now : Int) (p : CombinedInfo × String)
    (x : NotifEntry) (h : classifyDeleteEntry now p = some x) :
    x.1 = p.1 ∧ x.2.1 = (100 : ℚ) := by
  rw [classifyDeleteEntry_eq] at h
  repeat' split at h
  all_goals
    try (obtain rfl := (Option.some.inj h).symm; exact ⟨rfl, rfl⟩)
  all_goals exact absurd h (by simp)

theorem classifyDeleteEntry_some (now : Int) (p : CombinedInfo × String)
    (hcase : timestampTruthy p.1.kommander_cluster.creationTimestamp = true ∨
      missingLabelKeywords.any (fun k => containsSubstr (lowerStr p.2) k) = true ∨
      containsSubstr (lowerStr p.2) "expired" = false ∨
      truthyOptStr (lookupLabel p.1.labels "expires") = false) :
    ∃ e, classifyDeleteEntry now p = some (p.1, 100, e) := by
  rw [classifyDeleteEntry_eq]
  by_cases h1 : missingLabelKeywords.any (fun k => containsSubstr (lowerStr p.2) k) = true
  · rw [if_pos h1]
    exact ⟨now, rfl⟩
  · rw [if_neg h1]
    by_cases h2 : containsSubstr (lowerStr p.2) "expired" = true
    · rw [if_pos h2]
      by_cases h3 : truthyOptStr (lookupLabel p.1.labels "expires") = true
      · rw [if_pos h3]
        have h4 : timestampTruthy p.1.kommander_cluster.creationTimestamp = true := by
          rcases hcase with h | h | h | h
          · exact h
          · exact absurd h h1
          · rw [h2] at h
            exact absurd h (by simp)
          · rw [h3] at h
            exact absurd h (by simp)
        rw [if_pos h4]
        obtain ⟨ts, hts⟩ : ∃ ts, p.1.kommander_cluster.creationTimestamp = some ts := by
          rcases ho : p.1.kommander_cluster.creationTimestamp with _ | ts
          · rw [ho] at h4
            exact absurd h4 (by simp [timestampTruthy])
          · exact ⟨ts, rfl⟩
        simp only [hts]
        rcases hE : parseExpiresLabel ((lookupLabel p.1.labels "expires").getD "") ts
            with msg | val
        · simp only [hE]
          exact ⟨now, rfl⟩
        · simp only [hE]
          exact ⟨val, rfl⟩
      · rw [if_neg h3]
        exact ⟨now, rfl⟩
    · rw [if_neg h2]
      exact ⟨now, rfl⟩

theorem classifyDeleteEntry_of_criteria (rm : RegexMatch) (cfg : DeletionCriteria)
    (now : Int) (kc : KommanderCluster)
    (h : (matchesCriteria rm cfg now kc).1 = true) :
    ∃ e, classifyDeleteEntry now (mkCombinedInfo kc, (matchesCriteria rm cfg now kc).2) =
      some (mkCombinedInfo kc, 100, e) := by
  apply classifyDeleteEntry_some
  rcases matchesCriteria_true_elim rm cfg now kc h with hr | hr | hr | hr
  · right; right; left
    rw [hr]
    decide
  · right; left
    exact validate_error_keyword rm cfg kc.labels _ hr
  · right; right; left
    rw [hr]
    decide
  · left
    exact hr

/-! ## Helper lemmas: notification classification of excluded entries -/

theorem mkCombinedInfo_labels (kc : KommanderCluster) :
    (mkCombinedInfo kc).labels = kc.labels := rfl

theorem mkCombinedInfo_kcField (kc : KommanderCluster) :
    (mkCombinedInfo kc).kommander_cluster = kc := rfl

theorem mkCombinedInfo_inj (kc kc2 : KommanderCluster)
    (h : mkCombinedInfo kc = mkCombinedInfo kc2) : kc = kc2 :=
  congrArg CombinedInfo.kommander_cluster h

theorem notExpiredReason_sub (rem : Nat) :
    containsSubstr (notExpiredReason rem) "has not expired yet" = true := by
  unfold notExpiredReason
  by_cases h : rem / 86400 > 0
  · rw [if_pos h]
    show listHasSub "has not expired yet".data
      ("Cluster has not expired yet (expires in ~" ++ toString (rem / 86400) ++ "d)").data
        = true
    simp only [String.data_append]
    apply listHasSub_append_left
    apply listHasSub_append_left
    decide
  · rw [if_neg h]
    show listHasSub "has not expired yet".data
      ("Cluster has not expired yet (expires in ~" ++ toString (rem % 86400 / 3600) ++ "h)").data
        = true
    simp only [String.data_append]
    apply listHasSub_append_left
    apply listHasSub_append_left
    decide

theorem classifyExcludedEntry_notExpired (now wth cth : Int) (kc : KommanderCluster)
    (v : String) (ts : Timestamp) (ctime expiry : Int) (r : String)
    (hsub : containsSubstr r "has not expired yet" = true)
    (hexp : lookupLabel kc.labels "expires" = some v)
    (hvne : v ≠ "")
    (hts : kc.creationTimestamp = some ts) (hraw : ts.raw ≠ "")
    (hparsed : ts.parsed = some ctime)
    (hparse : parseExpiresLabel v ts = .ok expiry) :
    classifyExcludedEntry now wth cth (mkCombinedInfo kc, r) =
      (if expiry - ctime > 0 then
        if clampPct (((now - ctime : ℤ) : ℚ) / ((expiry - ctime : ℤ) : ℚ) * 100) ≥ (cth : ℚ)
        then some (Severity.critical, (mkCombinedInfo kc,
          clampPct (((now - ctime : ℤ) : ℚ) / ((expiry - ctime : ℤ) : ℚ) * 100), expiry))
        else if clampPct (((now - ctime : ℤ) : ℚ) / ((expiry - ctime : ℤ) : ℚ) * 100) ≥ (wth : ℚ)
        then some (Severity.warning, (mkCombinedInfo kc,
          clampPct (((now - ctime : ℤ) : ℚ) / ((expiry - ctime : ℤ) : ℚ) * 100), expiry))
        else none
      else none) := by
  have htv : truthyOptStr (some v) = true := by simp [truthyOptStr, hvne]
  have htt : timestampTruthy (some ts) = true := by simp [timestampTruthy, hraw]
  unfold classifyExcludedEntry
  simp only [mkCombinedInfo_labels, mkCombinedInfo_kcField, hexp, hts, htv, htt, hsub,
    Option.getD_some, hparse, hparsed]
  rw [if_neg (by simp), if_neg (by simp), if_neg (by simp)]

theorem classifyExcludedEntry_shape (now wth cth : Int) (p : CombinedInfo × String)
    (sev : Severity) (x : NotifEntry)
    (h : classifyExcludedEntry now wth cth p = some (sev, x)) : x.1 = p.1 := by
  simp only [classifyExcludedEntry] at h
  repeat' split at h
  all_goals
    first
      | exact Option.noConfusion h
      | rw [← (Prod.mk.inj (Option.some.inj h)).2]

theorem pickCritical_eq_some (now wth cth : Int) (p : CombinedInfo × String)
    (e : NotifEntry) :
    pickCritical now wth cth p = some e ↔
      classifyExcludedEntry now wth cth p = some (Severity.critical, e) := by
  unfold pickCritical
  rcases h : classifyExcludedEntry now wth cth p with _ | ⟨sev, x⟩
  · simp [h]
  · cases sev <;> simp [h]

theorem pickWarning_eq_some (now wth cth : Int) (p : CombinedInfo × String)
    (e : NotifEntry) :
    pickWarning now wth cth p = some e ↔
      classifyExcludedEntry now wth cth p = some (Severity.warning, e) := by
  unfold pickWarning
  rcases h : classifyExcludedEntry now wth cth p with _ | ⟨sev, x⟩
  · simp [h]
  · cases sev <;> simp [h]

theorem gcfn_eq_of_valid (rm : RegexMatch) (cfg : DeletionCriteria)
    (capiExists : CapiOracle) (wth cth now : Int) (clusters : List KommanderCluster)
    (h0 : 0 ≤ wth) (h1 : wth < cth) (h2 : cth ≤ 100) :
    getClustersForNotification rm cfg capiExists wth cth now clusters =
      .ok ((getClustersWithExclusions rm cfg capiExists now clusters).1.filterMap
            (classifyDeleteEntry now) ++
          (getClustersWithExclusions rm cfg capiExists now clusters).2.filterMap
            (pickCritical now wth cth),
          (getClustersWithExclusions rm cfg capiExists now clusters).2.filterMap
            (pickWarning now wth cth)) := by
  unfold getClustersForNotification
  rw [if_neg (by simp only [Bool.or_eq_true, decide_eq_true_eq]; omega),
      if_neg (by simp only [Bool.or_eq_true, decide_eq_true_eq]; omega),
      if_neg (by omega)]

theorem matchesCriteria_notExpired (rm : RegexMatch) (cfg : DeletionCriteria)
    (now : Int) (kc : KommanderCluster) (v : String) (ts : Timestamp) (expiry : Int)
    (hname : kc.name ≠ "host-cluster")
    (hprot : isClusterProtected rm cfg kc.name kc.nspace = false)
    (hexp : lookupLabel kc.labels "expires" = some v)
    (hval : validateExtraLabels rm cfg kc.labels = [])
    (hts : kc.creationTimestamp = some ts)
    (hraw : ts.raw ≠ "")
    (hparse : parseExpiresLabel v ts = .ok expiry)
    (hlt : now < expiry) :
    matchesCriteria rm cfg now kc = (false, notExpiredReason (expiry - now).toNat) := by
  rw [matchesCriteria_expiry_step rm cfg now kc v ts expiry hname hprot hexp hval hts
        hraw hparse,
      if_neg (by omega)]

theorem mem_crit_from_excluded (rm : RegexMatch) (cfg : DeletionCriteria)
    (capiExists : CapiOracle) (wth cth now : Int) (clusters : List KommanderCluster)
    (kc : KommanderCluster) (r : String) (x : ℚ × Int)
    (hone : classifyOne rm cfg capiExists now kc = .inr (mkCombinedInfo kc, r))
    (hin : (mkCombinedInfo kc, x) ∈
      ((getClustersWithExclusions rm cfg capiExists now clusters).1.filterMap
          (classifyDeleteEntry now) ++
        (getClustersWithExclusions rm cfg capiExists now clusters).2.filterMap
          (pickCritical now wth cth))) :
    classifyExcludedEntry now wth cth (mkCombinedInfo kc, r) =
      some (Severity.critical, (mkCombinedInfo kc, x)) := by
  rcases List.mem_append.mp hin with hin1 | hin2
  · exfalso
    obtain ⟨q, hq, hcde⟩ := List.mem_filterMap.mp hin1
    obtain ⟨hsh1, -⟩ := classifyDeleteEntry_shape now q _ hcde
    obtain ⟨kc2, -, hone2⟩ := (mem_gcwe_delete rm cfg capiExists now clusters q).mp hq
    have hq1 := classifyOne_inl_fst rm cfg capiExists now kc2 q hone2
    have hkk : kc = kc2 := mkCombinedInfo_inj _ _ (by rw [← hq1, ← hsh1])
    subst hkk
    rw [hone] at hone2
    exact absurd hone2 (by simp)
  · obtain ⟨q, hq, hpick⟩ := List.mem_filterMap.mp hin2
    have hceeq := (pickCritical_eq_some now wth cth q _).mp hpick
    have hx1 := classifyExcludedEntry_shape now wth cth q _ _ hceeq
    obtain ⟨kc2, -, hone2⟩ := (mem_gcwe_excluded rm cfg capiExists now clusters q).mp hq
    have hq1 := classifyOne_inr_fst rm cfg capiExists now kc2 q hone2
    have hkk : kc = kc2 := mkCombinedInfo_inj _ _ (by rw [← hq1, ← hx1])
    subst hkk
    rw [hone] at hone2
    obtain rfl := (Sum.inr.inj hone2).symm
    exact hceeq

theorem mem_warn_from_excluded (rm : RegexMatch) (cfg : DeletionCriteria)
    (capiExists : CapiOracle) (wth cth now : Int) (clusters : List KommanderCluster)
    (kc : KommanderCluster) (r : String) (x : ℚ × Int)
    (hone : classifyOne rm cfg capiExists now kc = .inr (mkCombinedInfo kc, r))
    (hin : (mkCombinedInfo kc, x) ∈
      (getClustersWithExclusions rm cfg capiExists now clusters).2.filterMap
        (pickWarning now wth cth)) :
    classifyExcludedEntry now wth cth (mkCombinedInfo kc, r) =
      some (Severity.warning, (mkCombinedInfo kc, x)) := by
  obtain ⟨q, hq, hpick⟩ := List.mem_filterMap.mp hin
  have hceeq := (pickWarning_eq_some now wth cth q _).mp hpick
  have hx1 := classifyExcludedEntry_shape now wth cth q _ _ hceeq
  obtain ⟨kc2, -, hone2⟩ := (mem_gcwe_excluded rm cfg capiExists now clusters q).mp hq
  have hq1 := classifyOne_inr_fst rm cfg capiExists now kc2 q hone2
  have hkk : kc = kc2 := mkCombinedInfo_inj _ _ (by rw [← hq1, ← hx1])
  subst hkk
  rw [hone] at hone2
  obtain rfl := (Sum.inr.inj hone2).symm
  exact hceeq

/-! ## Claim C3: threshold classification of the notification engine -/

/-- C3: with thresholds 0 ≤ w < c ≤ 100 (which the engine accepts):
every record of the delete-set appears in the critical list with elapsed
percentage exactly 100.0, whatever the deletion reason; and a cluster
protected because it has not yet expired (with a nondegenerate window,
creation < expiry) is in the critical list iff its clamped elapsed
percentage is ≥ c, and in the warning list iff w ≤ percentage < c
(otherwise it is in neither). -/
theorem c3_threshold_classification (rm : RegexMatch) (cfg : DeletionCriteria)
    (capiExists : CapiOracle) (wth cth now : Int) (clusters : List KommanderCluster)
    (crit warn : List NotifEntry)
    (h0 : 0 ≤ wth) (h1 : wth < cth) (h2 : cth ≤ 100)
    (hok : getClustersForNotification rm cfg capiExists wth cth now clusters =
      .ok (crit, warn)) :
    (∀ p ∈ (getClustersWithExclusions rm cfg capiExists now clusters).1,
      ∃ e, (p.1, (100 : ℚ), e) ∈ crit) ∧
    (∀ kc ∈ clusters, ∀ (v : String) (ts : Timestamp) (ctime expiry : Int),
      kc.name ≠ "host-cluster" →
      isClusterProtected rm cfg kc.name kc.nspace = false →
      lookupLabel kc.labels "expires" = some v →
      validateExtraLabels rm cfg kc.labels = [] →
      kc.creationTimestamp = some ts → ts.raw ≠ "" → ts.parsed = some ctime →
      parseExpiresLabel v ts = .ok expiry →
      now < expiry → ctime < expiry →
      (((mkCombinedInfo kc,
          clampPct (((now - ctime : ℤ) : ℚ) / ((expiry - ctime : ℤ) : ℚ) * 100),
          expiry) ∈ crit) ↔
        clampPct (((now - ctime : ℤ) : ℚ) / ((expiry - ctime : ℤ) : ℚ) * 100) ≥ (cth : ℚ)) ∧
      (((mkCombinedInfo kc,
          clampPct (((now - ctime : ℤ) : ℚ) / ((expiry - ctime : ℤ) : ℚ) * 100),
          expiry) ∈ warn) ↔
        ((wth : ℚ) ≤ clampPct (((now - ctime : ℤ) : ℚ) / ((expiry - ctime : ℤ) : ℚ) * 100) ∧
          clampPct (((now - ctime : ℤ) : ℚ) / ((expiry - ctime : ℤ) : ℚ) * 100) < (cth : ℚ)))) := by
  have hval := gcfn_eq_of_valid rm cfg capiExists wth cth now clusters h0 h1 h2
  rw [hok] at hval
  have hpair := Except.ok.inj hval
  have hcrit := congrArg Prod.fst hpair
  have hwarn := congrArg Prod.snd hpair
  simp only at hcrit hwarn
  constructor
  · intro p hp
    obtain ⟨kc, hkc, hcls⟩ := (mem_gcwe_delete rm cfg capiExists now clusters p).mp hp
    obtain ⟨hpe, hdel, -, -⟩ := classifyOne_inl_elim rm cfg capiExists now kc p hcls
    obtain ⟨e, he⟩ := classifyDeleteEntry_of_criteria rm cfg now kc hdel
    refine ⟨e, ?_⟩
    rw [hcrit]
    apply List.mem_append_left
    rw [List.mem_filterMap]
    refine ⟨p, hp, ?_⟩
    rw [hpe]
    exact he
  · intro kc hkc v ts ctime expiry hname hprot hexp hvalz hts hraw hparsed hparse
      hltnow hltct
    have hmc := matchesCriteria_notExpired rm cfg now kc v ts expiry hname hprot hexp
      hvalz hts hraw hparse hltnow
    have hone : classifyOne rm cfg capiExists now kc =
        .inr (mkCombinedInfo kc, notExpiredReason (expiry - now).toNat) := by
      have hx := classifyOne_inr_of_protect rm cfg capiExists now kc (by rw [hmc])
      rw [hmc] at hx
      exact hx
    have hvne := parseExpiresLabel_ok_ne_empty v ts expiry hparse
    have hcee := classifyExcludedEntry_notExpired now wth cth kc v ts ctime expiry
      (notExpiredReason (expiry - now).toNat)
      (notExpiredReason_sub _) hexp hvne hts hraw hparsed hparse
    have htot : expiry - ctime > 0 := by omega
    rw [if_pos htot] at hcee
    have hmem_ex : (mkCombinedInfo kc, notExpiredReason (expiry - now).toNat) ∈
        (getClustersWithExclusions rm cfg capiExists now clusters).2 :=
      (mem_gcwe_excluded rm cfg capiExists now clusters _).mpr ⟨kc, hkc, hone⟩
    constructor
    · constructor
      · intro hin
        rw [hcrit] at hin
        have hres := mem_crit_from_excluded rm cfg capiExists wth cth now clusters kc
          (notExpiredReason (expiry - now).toNat) _ hone hin
        rw [hcee] at hres
        by_cases hge : clampPct (((now - ctime : ℤ) : ℚ) / ((expiry - ctime : ℤ) : ℚ) * 100) ≥
            (cth : ℚ)
        · exact hge
        · rw [if_neg hge] at hres
          by_cases hw : clampPct (((now - ctime : ℤ) : ℚ) / ((expiry - ctime : ℤ) : ℚ) * 100) ≥
              (wth : ℚ)
          · rw [if_pos hw] at hres
            exact absurd hres (by simp)
          · rw [if_neg hw] at hres
            exact absurd hres (by simp)
      · intro hge
        rw [hcrit]
        apply List.mem_append_right
        rw [List.mem_filterMap]
        refine ⟨(mkCombinedInfo kc, notExpiredReason (expiry - now).toNat), hmem_ex, ?_⟩
        rw [pickCritical_eq_some, hcee, if_pos hge]
    · constructor
      · intro hin
        rw [hwarn] at hin
        have hres := mem_warn_from_excluded rm cfg capiExists wth cth now clusters kc
          (notExpiredReason (expiry - now).toNat) _ hone hin
        rw [hcee] at hres
        by_cases hge : clampPct (((now - ctime : ℤ) : ℚ) / ((expiry - ctime : ℤ) : ℚ) * 100) ≥
            (cth : ℚ)
        · rw [if_pos hge] at hres
          exact absurd hres (by simp)
        · rw [if_neg hge] at hres
          by_cases hw : clampPct (((now - ctime : ℤ) : ℚ) / ((expiry - ctime : ℤ) : ℚ) * 100) ≥
              (wth : ℚ)
          · exact ⟨ge_iff_le.mp hw, not_le.mp hge⟩
          · rw [if_neg hw] at hres
            exact absurd hres (by simp)
      · rintro ⟨hw, hltc⟩
        rw [hwarn]
        rw [List.mem_filterMap]
        refine ⟨(mkCombinedInfo kc, notExpiredReason (expiry - now).toNat), hmem_ex, ?_⟩
        rw [pickWarning_eq_some, hcee, if_neg (not_le.mpr hltc), if_pos (ge_iff_le.mpr hw)]

/-! Shared concrete fixtures for witnesses and counterexamples. -/

/-- An oracle under which no policy pattern matches. -/
def rmNone : RegexMatch := fun _ _ => false

/-- An oracle under which every CAPI cluster reference resolves. -/
def capiAll : CapiOracle := fun _ _ => true

/-- The empty policy configuration. -/
def cfgEmpty : DeletionCriteria := ⟨[], [], []⟩

/-- A cluster without an `expires` label (deleted for that reason). -/
def kcNoLabel : KommanderCluster :=
  ⟨"dev-nolabel", "default", [], some ⟨"2025-01-01T00:00:00Z", some 0⟩,
   some "dev-nolabel", some "default"⟩

/-- C3 witness: with thresholds 80/95, a cluster deleted for a missing
expires label appears in the critical list at exactly 100.0. -/
theorem c3_witness :
    ∃ e, ((mkCombinedInfo kcNoLabel, missingExpiresReason).1, (100 : ℚ), e) ∈
      [(mkCombinedInfo kcNoLabel, (100 : ℚ), (0 : ℤ))] :=
  (c3_threshold_classification rmNone cfgEmpty capiAll 80 95 0 [kcNoLabel]
    [(mkCombinedInfo kcNoLabel, (100 : ℚ), (0 : ℤ))] []
    (by decide) (by decide) (by decide) (by decide)).1
    (mkCombinedInfo kcNoLabel, missingExpiresReason) (by decide)

/-! ## Claim C7: the zero-duration window -/

/-- A not-yet-expired cluster whose computed expiry instant equals its
creation instant ("0d" lifetime, evaluated before its creation time). -/
def kcZero : KommanderCluster :=
  ⟨"dev-zero", "default", [("expires", "0d")],
   some ⟨"2025-01-02T00:00:00Z", some 86400⟩, some "dev-zero", some "default"⟩

/-- C7 counterexample: this cluster is protected as not-yet-expired, its
expiry instant (86400) equals its creation instant, yet the notification
engine returns empty critical and warning lists — it is skipped, not
reported critical at 100. -/
theorem c7_counterexample :
    matchesCriteria rmNone cfgEmpty 82800 kcZero = (false, notExpiredReason 3600) ∧
    parseExpiresLabel "0d" ⟨"2025-01-02T00:00:00Z", some 86400⟩ = .ok 86400 ∧
    getClustersForNotification rmNone cfgEmpty capiAll 80 95 82800 [kcZero] =
      .ok ([], []) := by
  refine ⟨by decide, by decide, by decide⟩

/-- C7 amended: a not-yet-expired cluster whose computed expiry equals
its creation timestamp is SKIPPED by the notification classifier (the
`total_duration > 0` guard): it produces no entry in either output list,
and no division by zero occurs because the percentage is never
computed. -/
theorem c7_zero_duration_skipped (rm : RegexMatch) (cfg : DeletionCriteria)
    (capiExists : CapiOracle) (wth cth now : Int) (clusters : List KommanderCluster)
    (crit warn : List NotifEntry) (kc : KommanderCluster) (v : String)
    (ts : Timestamp) (ctime expiry : Int)
    (h0 : 0 ≤ wth) (h1 : wth < cth) (h2 : cth ≤ 100)
    (hok : getClustersForNotification rm cfg capiExists wth cth now clusters =
      .ok (crit, warn))
    (hname : kc.name ≠ "host-cluster")
    (hprot : isClusterProtected rm cfg kc.name kc.nspace = false)
    (hexp : lookupLabel kc.labels "expires" = some v)
    (hvalz : validateExtraLabels rm cfg kc.labels = [])
    (hts : kc.creationTimestamp = some ts) (hraw : ts.raw ≠ "")
    (hparsed : ts.parsed = some ctime)
    (hparse : parseExpiresLabel v ts = .ok expiry)
    (hltnow : now < expiry) (hzero : expiry = ctime) :
    classifyExcludedEntry now wth cth
      (mkCombinedInfo kc, notExpiredReason (expiry - now).toNat) = none ∧
    (∀ x : ℚ × Int, (mkCombinedInfo kc, x) ∉ crit) ∧
    (∀ x : ℚ × Int, (mkCombinedInfo kc, x) ∉ warn) := by
  have hval := gcfn_eq_of_valid rm cfg capiExists wth cth now clusters h0 h1 h2
  rw [hok] at hval
  have hpair := Except.ok.inj hval
  have hcrit := congrArg Prod.fst hpair
  have hwarn := congrArg Prod.snd hpair
  simp only at hcrit hwarn
  have hmc := matchesCriteria_notExpired rm cfg now kc v ts expiry hname hprot hexp
    hvalz hts hraw hparse hltnow
  have hone : classifyOne rm cfg capiExists now kc =
      .inr (mkCombinedInfo kc, notExpiredReason (expiry - now).toNat) := by
    have hx := classifyOne_inr_of_protect rm cfg capiExists now kc (by rw [hmc])
    rw [hmc] at hx
    exact hx
  have hvne := parseExpiresLabel_ok_ne_empty v ts expiry hparse
  have hcee := classifyExcludedEntry_notExpired now wth cth kc v ts ctime expiry
    (notExpiredReason (expiry - now).toNat)
    (notExpiredReason_sub _) hexp hvne hts hraw hparsed hparse
  rw [if_neg (by omega)] at hcee
  refine ⟨hcee, ?_, ?_⟩
  · intro x hin
    rw [hcrit] at hin
    have hres := mem_crit_from_excluded rm cfg capiExists wth cth now clusters kc
      (notExpiredReason (expiry - now).toNat) x hone hin
    rw [hcee] at hres
    exact absurd hres (by simp)
  · intro x hin
    rw [hwarn] at hin
    have hres := mem_warn_from_excluded rm cfg capiExists wth cth now clusters kc
      (notExpiredReason (expiry - now).toNat) x hone hin
    rw [hcee] at hres
    exact absurd hres (by simp)

/-- C7 witness for the amended statement, at the concrete zero-duration
cluster. -/
theorem c7_witness :
    classifyExcludedEntry 82800 80 95
      (mkCombinedInfo kcZero, notExpiredReason ((86400 : ℤ) - 82800).toNat) = none ∧
    (∀ x : ℚ × ℤ, (mkCombinedInfo kcZero, x) ∉ ([] : List NotifEntry)) ∧
    (∀ x : ℚ × ℤ, (mkCombinedInfo kcZero, x) ∉ ([] : List NotifEntry)) :=
  c7_zero_duration_skipped rmNone cfgEmpty capiAll 80 95 82800 [kcZero] [] []
    kcZero "0d" ⟨"2025-01-02T00:00:00Z", some 86400⟩ 86400 86400
    (by decide) (by decide) (by decide) (by decide) (by decide) rfl rfl rfl rfl
    (by decide) rfl (by decide) (by decide) rfl

end NCC
